import Mathlib

/-!
# Verification of the proctoring violation-detection engine

A shallow embedding of the violation detection and interval-tracking engine of
`src/App.tsx` (the MediaPipe-based variant): the per-tick classification of a
frame into candidate conditions (`cell_phone`, `multiple_faces`,
`face_not_visible`), the consecutive-run tracker, the cell-phone debounce gate,
and the violation interval store (`addViolation` plus the inline close/extend
blocks of `detectWithMediaPipe`).

Pure data (drawing code, logs, detection history, recording) is omitted: it
never reads or writes the engine state modelled here.  Times are `Int`
milliseconds (`Date.now()` / `new Date().getTime()`); every call to
`new Date()` within one tick is modelled as the single tick timestamp `now`.
Scores are `Rat` (JS numbers used only via `Math.max`, comparison and storage).
-/

namespace Proctoring

/-- The three non-null members of `DetectionType` (App.tsx line 459); the
`null` member is represented as `Option.none` at use sites. -/
inductive DType where
  | cell_phone
  | multiple_faces
  | face_not_visible
deriving DecidableEq, Repr

/-- One entry of `detection.categories` from the MediaPipe object detector. -/
structure Category where
  categoryName : String
  score : Rat
deriving DecidableEq, Repr

/-- A bounding box as delivered by the detector (read only by drawing code,
kept for fidelity of the frame data model). -/
structure BoundingBox where
  originX : Rat
  originY : Rat
  width : Rat
  height : Rat
deriving DecidableEq, Repr

/-- One object detection of a frame. -/
structure Detection where
  categories : List Category
  boundingBox : Option BoundingBox
deriving DecidableEq, Repr

/-- A frame sample: the engine reads `faceResults.detections.length` (the face
count) and the object detections. -/
structure Frame where
  faceCount : Nat
  objectDetections : List Detection
deriving DecidableEq, Repr

/-- `ViolationEntry` (App.tsx lines 468-474): `{type, violationTime, startTime,
endTime, score?}`.  Note the source type has no `closed` field. -/
structure ViolationEntry where
  type : Option DType
  violationTime : Int
  startTime : Int
  endTime : Int
  score : Option Rat
deriving DecidableEq, Repr

/-- The mutable refs of the engine (App.tsx lines 485-497, 504):
`detectionCountRef` is split into its `type` and `count` fields. -/
structure EngineState where
  detectionType : Option DType
  detectionCount : Nat
  faceNotVisibleCount : Nat
  lastCellPhoneDetectionTime : Int
  latestDetectionScore : Option (DType × Rat)
  activeFaceNotVisible : Option Nat
  activeCellPhone : Option Nat
  activeMultipleFaces : Option Nat
  violations : List ViolationEntry
deriving DecidableEq, Repr

/-- The state at component mount: `useRef({type: null, count: 0})`,
`useRef(0)`, `useRef(0)`, `useRef(null)` three times, `useState([])`. -/
def initState : EngineState :=
  { detectionType := none
    detectionCount := 0
    faceNotVisibleCount := 0
    lastCellPhoneDetectionTime := 0
    latestDetectionScore := none
    activeFaceNotVisible := none
    activeCellPhone := none
    activeMultipleFaces := none
    violations := [] }

/-- JS `String.prototype.includes` on char lists. -/
def listIncludes (hay needle : List Char) : Bool :=
  match hay with
  | [] => needle.isEmpty
  | _ :: t => needle.isPrefixOf hay || listIncludes t needle

/-- JS `hay.includes(needle)`. -/
def strIncludes (hay needle : String) : Bool :=
  listIncludes hay.data needle.data

/-- JS `toLowerCase()`: lower-case every character. -/
def strToLower (s : String) : String :=
  ⟨s.data.map Char.toLower⟩

/-- The phone-label test of App.tsx lines 973-983: `categoryLower` compared
against the comprehensive list of possible phone category names. -/
def isPhoneCategory (categoryName : String) : Bool :=
  let categoryLower := strToLower categoryName
  categoryLower == "cell phone" ||
  strIncludes categoryLower "cell phone" ||
  strIncludes categoryLower "cellphone" ||
  categoryLower == "phone" ||
  categoryLower == "mobile" ||
  categoryLower == "mobile phone" ||
  categoryLower == "smartphone"

/-- The cell-phone scan of App.tsx lines 965-994: `isCellPhoneDetected` starts
false and `cellPhoneScore` at 0; for every detection with a nonempty category
list whose leading category has a phone label, the flag is set and the score
maximum is taken.  No bounding-box test and no score comparison occurs here. -/
def scanStep (acc : Bool × Rat) (d : Detection) : Bool × Rat :=
  match d.categories.head? with
  | some category =>
      if isPhoneCategory category.categoryName then
        (true, max acc.2 category.score)
      else acc
  | none => acc

/-- The fold of `scanStep` over the frame's object detections. -/
def scanCellPhone (dets : List Detection) : Bool × Rat :=
  dets.foldl scanStep (false, 0)

/-- The shared shape of every inline `setViolations(prev => ...)` close/extend
block (App.tsx 1015-1027, 1038-1050, 1080-1092, 1104-1116, 1121-1133,
1194-1204, 1207-1221, 1223-1234) and of the update branch of `addViolation`
(664-676): look up `prev[activeIndex]`, check the entry exists and its `type`
matches, then set `endTime := now` and overwrite `score` when a new score is
given; otherwise return the list unchanged.  `touched` is the updated entry:
`{...e, endTime: now, score: newScore !== undefined ? newScore : e.score}`. -/
def touched (e : ViolationEntry) (now : Int) (newScore : Option Rat) :
    ViolationEntry :=
  { e with
    endTime := now
    score := match newScore with
             | some q => some q
             | none => e.score }

/-- Perform the inline close/extend update on the store. -/
def updateActiveEntry (vs : List ViolationEntry) (active : Option Nat)
    (ty : DType) (now : Int) (newScore : Option Rat) : List ViolationEntry :=
  match active with
  | some i =>
      match vs[i]? with
      | some e => if e.type = some ty then vs.set i (touched e now newScore) else vs
      | none => vs
  | none => vs

/-- The fresh entry built by the create branch of `addViolation`
(App.tsx 683-694): `violationTime = now`, `startTime = now − 10s`,
`endTime = now + 10s`. -/
def freshEntry (ty : DType) (score : Option Rat) (now : Int) : ViolationEntry :=
  { type := some ty
    violationTime := now
    startTime := now - 10000
    endTime := now + 10000
    score := score }

/-- Result of `addViolation` on the store plus the per-kind active ref. -/
structure AddResult where
  violations : List ViolationEntry
  active : Option Nat
deriving DecidableEq, Repr

/-- `addViolation` for the three duration-tracked kinds (App.tsx 653-712):
if the active ref points at an entry of the matching type, its `endTime` is
updated (and `score` when provided); an out-of-bounds or type-mismatched
index is treated as stale (the ref is reset) and a fresh entry is appended,
with the ref set to its index.  The other-type branch of the source function
(714-734) is unreachable from the tick, which only ever passes one of the
three non-null kinds. -/
def addViolationTracked (ty : DType) (score : Option Rat) (now : Int)
    (active : Option Nat) (vs : List ViolationEntry) : AddResult :=
  match active with
  | some activeIndex =>
      match vs[activeIndex]? with
      | some e =>
          if e.type = some ty then
            { violations := vs.set activeIndex (touched e now score)
              active := some activeIndex }
          else
            { violations := vs ++ [freshEntry ty score now]
              active := some vs.length }
      | none =>
          { violations := vs ++ [freshEntry ty score now]
            active := some vs.length }
  | none =>
      { violations := vs ++ [freshEntry ty score now]
        active := some vs.length }

/-- The per-kind active violation ref (App.tsx 495-497, dispatch 657-661). -/
def ptrOf (s : EngineState) (ty : DType) : Option Nat :=
  match ty with
  | DType.face_not_visible => s.activeFaceNotVisible
  | DType.cell_phone => s.activeCellPhone
  | DType.multiple_faces => s.activeMultipleFaces

/-- Write the per-kind active violation ref. -/
def setPtr (s : EngineState) (ty : DType) (p : Option Nat) : EngineState :=
  match ty with
  | DType.face_not_visible => { s with activeFaceNotVisible := p }
  | DType.cell_phone => { s with activeCellPhone := p }
  | DType.multiple_faces => { s with activeMultipleFaces := p }

/-- `addViolation` applied to the engine state. -/
def applyAddViolation (s : EngineState) (ty : DType) (score : Option Rat)
    (now : Int) : EngineState :=
  let r := addViolationTracked ty score now (ptrOf s ty) s.violations
  setPtr { s with violations := r.violations } ty r.active

/-- `requiredConsecutive` (App.tsx 1143-1147): 3 for `cell_phone`, 8 for
`multiple_faces`, 20 otherwise (the `face_not_visible`/null fallthrough). -/
def requiredConsecutive (d : Option DType) : Nat :=
  match d with
  | some DType.cell_phone => 3
  | some DType.multiple_faces => 8
  | _ => 20

/-- `violationScore` (App.tsx 1181-1183): the latest detection score when its
type matches the confirmed kind, `undefined` otherwise. -/
def violationScoreFor (s : EngineState) (ty : DType) : Option Rat :=
  match s.latestDetectionScore with
  | some (lt, q) => if lt = ty then some q else none
  | none => none

/-- Step A of a tick (App.tsx 965-1029): cell-phone scan; on detection the
candidate becomes `cell_phone` and the latest score is recorded; otherwise an
active cell-phone violation is ended (`endTime := now`, ref cleared). -/
def stepCellPhone (f : Frame) (now : Int) (s : EngineState) :
    EngineState × Option DType :=
  let scan := scanCellPhone f.objectDetections
  if scan.1 then
    ({ s with latestDetectionScore := some (DType.cell_phone, scan.2) },
      some DType.cell_phone)
  else if s.activeCellPhone.isSome then
    ({ s with
        violations := updateActiveEntry s.violations s.activeCellPhone
          DType.cell_phone now none
        activeCellPhone := none }, none)
  else (s, none)

/-- Step B of a tick (App.tsx 1032-1052): multiple faces, checked only when no
higher-precedence candidate was set; otherwise when the face count is at most
one, an active multiple-faces violation is ended. -/
def stepMultipleFaces (f : Frame) (now : Int)
    (p : EngineState × Option DType) : EngineState × Option DType :=
  let s := p.1
  if 1 < f.faceCount ∧ p.2 = none then
    let sc : Option (DType × Rat) := some (DType.multiple_faces, (f.faceCount : Rat))
    ({ s with latestDetectionScore := sc }, some DType.multiple_faces)
  else if f.faceCount ≤ 1 ∧ s.activeMultipleFaces.isSome then
    ({ s with
        violations := updateActiveEntry s.violations s.activeMultipleFaces
          DType.multiple_faces now none
        activeMultipleFaces := none }, p.2)
  else p

/-- Step C of a tick (App.tsx 1055-1096): the dedicated consecutive face-miss
counter; the candidate becomes `face_not_visible` only once the counter has
reached 20.  When a face is seen the counter resets and, if the tracker was on
`face_not_visible`, the tracker is reset and the active violation ended. -/
def stepFaceNotVisible (f : Frame) (now : Int)
    (p : EngineState × Option DType) : EngineState × Option DType :=
  let s := p.1
  if f.faceCount = 0 ∧ p.2 = none then
    let c := s.faceNotVisibleCount + 1
    if 20 ≤ c then
      ({ s with
          faceNotVisibleCount := c
          latestDetectionScore := some (DType.face_not_visible, 0) },
        some DType.face_not_visible)
    else ({ s with faceNotVisibleCount := c }, p.2)
  else if 0 < f.faceCount then
    if s.detectionType = some DType.face_not_visible then
      ({ s with
          faceNotVisibleCount := 0
          detectionType := none
          detectionCount := 0
          violations := updateActiveEntry s.violations s.activeFaceNotVisible
            DType.face_not_visible now none
          activeFaceNotVisible := none }, p.2)
    else ({ s with faceNotVisibleCount := 0 }, p.2)
  else p

/-- Steps A-C: classification and cessation handling, producing the tick's
candidate `currentDetection`. -/
def classifyPhase (s : EngineState) (f : Frame) (now : Int) :
    EngineState × Option DType :=
  stepFaceNotVisible f now (stepMultipleFaces f now (stepCellPhone f now s))

/-- The cell-phone part of the switch branch of the tracker (App.tsx
1103-1118). -/
def closeCellPhoneOnSwitch (s : EngineState) (now : Int) : EngineState :=
  if s.detectionType = some DType.cell_phone ∧ s.activeCellPhone.isSome then
    { s with
        violations := updateActiveEntry s.violations s.activeCellPhone
          DType.cell_phone now none
        activeCellPhone := none }
  else s

/-- The multiple-faces part of the switch branch of the tracker (App.tsx
1120-1135). -/
def closeMultipleFacesOnSwitch (s : EngineState) (now : Int) : EngineState :=
  if s.detectionType = some DType.multiple_faces ∧
      s.activeMultipleFaces.isSome then
    { s with
        violations := updateActiveEntry s.violations s.activeMultipleFaces
          DType.multiple_faces now none
        activeMultipleFaces := none }
  else s

/-- The consecutive-run tracker step (App.tsx 1099-1139): same candidate
increments the count; otherwise active `cell_phone` / `multiple_faces`
violations are ended (note: not `face_not_visible`) and the tracker restarts
at 1 for a non-null candidate, 0 for null. -/
def trackerPhase (s : EngineState) (current : Option DType) (now : Int) :
    EngineState :=
  if current = s.detectionType then
    { s with detectionCount := s.detectionCount + 1 }
  else
    { closeMultipleFacesOnSwitch (closeCellPhoneOnSwitch s now) now with
        detectionType := current
        detectionCount := if current.isSome then 1 else 0 }

/-- The trigger step (App.tsx 1141-1235): confirmation check against
`requiredConsecutive`, the cell-phone debounce gate, `addViolation` on an
accepted trigger (with `lastCellPhoneDetectionTime := now` for cell phone),
and the continuation-update branches when the trigger is not accepted. -/
def triggerPhase (s : EngineState) (now : Int) : EngineState :=
  let confirmed := s.detectionType
  let hasEnough :=
    requiredConsecutive confirmed ≤ s.detectionCount ∧ confirmed ≠ none
  if confirmed = some DType.cell_phone ∧ hasEnough then
    if 1000 ≤ now - s.lastCellPhoneDetectionTime then
      applyAddViolation { s with lastCellPhoneDetectionTime := now }
        DType.cell_phone (violationScoreFor s DType.cell_phone) now
    else
      -- debounced: fall through to the continuation-update branches
      if s.activeCellPhone.isSome then
        { s with
            violations := updateActiveEntry s.violations s.activeCellPhone
              DType.cell_phone now (violationScoreFor s DType.cell_phone) }
      else s
  else if hasEnough then
    match confirmed with
    | some ty => applyAddViolation s ty (violationScoreFor s ty) now
    | none => s
  else if confirmed = some DType.face_not_visible ∧
      s.activeFaceNotVisible.isSome then
    { s with
        violations := updateActiveEntry s.violations s.activeFaceNotVisible
          DType.face_not_visible now none }
  else if confirmed = some DType.cell_phone ∧ s.activeCellPhone.isSome then
    { s with
        violations := updateActiveEntry s.violations s.activeCellPhone
          DType.cell_phone now (violationScoreFor s DType.cell_phone) }
  else if confirmed = some DType.multiple_faces ∧
      s.activeMultipleFaces.isSome then
    { s with
        violations := updateActiveEntry s.violations s.activeMultipleFaces
          DType.multiple_faces now none }
  else s

/-- The engine state after the classification and tracker steps, immediately
before the trigger step of the same tick. -/
def preTriggerState (s : EngineState) (f : Frame) (now : Int) : EngineState :=
  trackerPhase (classifyPhase s f now).1 (classifyPhase s f now).2 now

/-- One full sampling tick of `detectWithMediaPipe` on the engine state. -/
def tick (s : EngineState) (f : Frame) (now : Int) : EngineState :=
  triggerPhase (preTriggerState s f now) now

/-- States reachable from the mount state by ticks. -/
inductive Reachable : EngineState → Prop where
  | init : Reachable initState
  | step (s : EngineState) (f : Frame) (now : Int) :
      Reachable s → Reachable (tick s f now)

/-- Run a list of (frame, timestamp) ticks from a given state. -/
def runTraceFrom (s : EngineState) (tr : List (Frame × Int)) : EngineState :=
  tr.foldl (fun t p => tick t p.1 p.2) s

/-- Run a trace from the mount state. -/
def runTrace (tr : List (Frame × Int)) : EngineState :=
  runTraceFrom initState tr

/-! ## Basic store lemmas -/

/-- The fields of an entry that are written once at creation and never
touched again: `type`, `violationTime`, `startTime`. -/
def entrySkel (e : ViolationEntry) : Option DType × Int × Int :=
  (e.type, e.violationTime, e.startTime)

/-- Store evolution without appends: length and all immutable fields kept. -/
def StoreEq (vs vs' : List ViolationEntry) : Prop :=
  vs'.length = vs.length ∧
  ∀ (j : Nat) (e : ViolationEntry), vs[j]? = some e →
    ∃ e', vs'[j]? = some e' ∧ entrySkel e' = entrySkel e

/-- Store evolution of one tick: at most one append, immutable fields kept. -/
def StoreStep (vs vs' : List ViolationEntry) : Prop :=
  (vs'.length = vs.length ∨ vs'.length = vs.length + 1) ∧
  ∀ (j : Nat) (e : ViolationEntry), vs[j]? = some e →
    ∃ e', vs'[j]? = some e' ∧ entrySkel e' = entrySkel e

theorem StoreEq.refl (vs : List ViolationEntry) : StoreEq vs vs :=
  ⟨rfl, fun _ e h => ⟨e, h, rfl⟩⟩

theorem StoreEq.trans {a b c : List ViolationEntry} (h1 : StoreEq a b)
    (h2 : StoreEq b c) : StoreEq a c := by
  refine ⟨h2.1.trans h1.1, fun j e he => ?_⟩
  obtain ⟨e1, he1, hs1⟩ := h1.2 j e he
  obtain ⟨e2, he2, hs2⟩ := h2.2 j e1 he1
  exact ⟨e2, he2, hs2.trans hs1⟩

theorem StoreEq.toStep {a b : List ViolationEntry} (h : StoreEq a b) :
    StoreStep a b :=
  ⟨Or.inl h.1, h.2⟩

theorem StoreEq.trans_step {a b c : List ViolationEntry} (h1 : StoreEq a b)
    (h2 : StoreStep b c) : StoreStep a c := by
  refine ⟨?_, fun j e he => ?_⟩
  · rcases h2.1 with h | h
    · exact Or.inl (h.trans h1.1)
    · exact Or.inr (by rw [h, h1.1])
  · obtain ⟨e1, he1, hs1⟩ := h1.2 j e he
    obtain ⟨e2, he2, hs2⟩ := h2.2 j e1 he1
    exact ⟨e2, he2, hs2.trans hs1⟩

@[simp]
theorem touched_type (e : ViolationEntry) (now : Int) (sc : Option Rat) :
    (touched e now sc).type = e.type := by
  cases sc <;> rfl

@[simp]
theorem touched_skel (e : ViolationEntry) (now : Int) (sc : Option Rat) :
    entrySkel (touched e now sc) = entrySkel e := by
  cases sc <;> rfl

@[simp]
theorem touched_endTime (e : ViolationEntry) (now : Int) (sc : Option Rat) :
    (touched e now sc).endTime = now := by
  cases sc <;> rfl

theorem updateActiveEntry_match {vs : List ViolationEntry} {i : Nat}
    {e : ViolationEntry} (ty : DType) (now : Int) (sc : Option Rat)
    (he : vs[i]? = some e) (hty : e.type = some ty) :
    updateActiveEntry vs (some i) ty now sc = vs.set i (touched e now sc) := by
  simp only [updateActiveEntry, he, hty, if_pos]

/-- Closing/extending through an absent pointer is a no-op on the store. -/
theorem updateActiveEntry_none (vs : List ViolationEntry) (ty : DType)
    (now : Int) (sc : Option Rat) :
    updateActiveEntry vs none ty now sc = vs := rfl

/-- Closing/extending through a stale pointer (out of bounds or pointing at
an entry of another kind) is a no-op on the store. -/
theorem updateActiveEntry_stale {vs : List ViolationEntry} {i : Nat}
    (ty : DType) (now : Int) (sc : Option Rat)
    (h : ∀ e, vs[i]? = some e → e.type ≠ some ty) :
    updateActiveEntry vs (some i) ty now sc = vs := by
  simp only [updateActiveEntry]
  cases he : vs[i]? with
  | none => rfl
  | some e => simp [h e he]

theorem updateActiveEntry_length (vs : List ViolationEntry) (a : Option Nat)
    (ty : DType) (now : Int) (sc : Option Rat) :
    (updateActiveEntry vs a ty now sc).length = vs.length := by
  cases a with
  | none => rfl
  | some i =>
      cases he : vs[i]? with
      | none => simp [updateActiveEntry, he]
      | some e =>
          by_cases ht : e.type = some ty
          · rw [updateActiveEntry_match ty now sc he ht, List.length_set]
          · rw [updateActiveEntry_stale ty now sc
              (fun e1 he1 => by rw [he] at he1; cases he1; exact ht)]

theorem updateActiveEntry_storeEq (vs : List ViolationEntry) (a : Option Nat)
    (ty : DType) (now : Int) (sc : Option Rat) :
    StoreEq vs (updateActiveEntry vs a ty now sc) := by
  refine ⟨updateActiveEntry_length vs a ty now sc, fun j e he => ?_⟩
  cases a with
  | none => exact ⟨e, he, rfl⟩
  | some i =>
      cases h : vs[i]? with
      | none => simp only [updateActiveEntry, h]; exact ⟨e, he, rfl⟩
      | some e1 =>
          by_cases ht : e1.type = some ty
          · rw [updateActiveEntry_match ty now sc h ht]
            by_cases hij : i = j
            · subst hij
              have hlt : i < vs.length := (List.getElem?_eq_some.mp he).fst
              rw [he] at h
              cases h
              exact ⟨touched e now sc, List.getElem?_set_self hlt,
                touched_skel e now sc⟩
            · exact ⟨e, by rw [List.getElem?_set_ne hij]; exact he, rfl⟩
          · rw [updateActiveEntry_stale ty now sc
              (fun e2 he2 => by rw [h] at he2; cases he2; exact ht)]
            exact ⟨e, he, rfl⟩

/-- An entry whose type differs from the updated kind is never touched. -/
theorem updateActiveEntry_other_type {vs : List ViolationEntry}
    {j : Nat} {e : ViolationEntry} (a : Option Nat) (ty : DType) (now : Int)
    (sc : Option Rat) (he : vs[j]? = some e) (hty : e.type ≠ some ty) :
    (updateActiveEntry vs a ty now sc)[j]? = some e := by
  cases a with
  | none => exact he
  | some i =>
      cases h : vs[i]? with
      | none => simp only [updateActiveEntry, h]; exact he
      | some e1 =>
          by_cases ht : e1.type = some ty
          · rw [updateActiveEntry_match ty now sc h ht]
            have hij : i ≠ j := by
              intro hij
              subst hij
              rw [he] at h
              cases h
              exact hty ht
            rw [List.getElem?_set_ne hij]
            exact he
          · rw [updateActiveEntry_stale ty now sc
              (fun e2 he2 => by rw [h] at he2; cases he2; exact ht)]
            exact he

theorem addViolationTracked_ptr_none (ty : DType) (sc : Option Rat)
    (now : Int) (vs : List ViolationEntry) :
    addViolationTracked ty sc now none vs =
      ⟨vs ++ [freshEntry ty sc now], some vs.length⟩ := rfl

/-- A stale active index (out of bounds or wrong kind) is ignored and a fresh
entry is appended, the pointer set to the fresh index. -/
theorem addViolationTracked_stale {vs : List ViolationEntry} {i : Nat}
    (ty : DType) (sc : Option Rat) (now : Int)
    (h : ∀ e, vs[i]? = some e → e.type ≠ some ty) :
    addViolationTracked ty sc now (some i) vs =
      ⟨vs ++ [freshEntry ty sc now], some vs.length⟩ := by
  simp only [addViolationTracked]
  cases he : vs[i]? with
  | none => rfl
  | some e => simp [h e he]

theorem addViolationTracked_match {vs : List ViolationEntry} {i : Nat}
    {e : ViolationEntry} (ty : DType) (sc : Option Rat) (now : Int)
    (he : vs[i]? = some e) (hty : e.type = some ty) :
    addViolationTracked ty sc now (some i) vs =
      ⟨vs.set i (touched e now sc), some i⟩ := by
  simp only [addViolationTracked, he, hty, if_pos]

/-- The active index returned by `addViolation` points at an entry of the
requested kind. -/
theorem addViolationTracked_active_valid (ty : DType) (sc : Option Rat)
    (now : Int) (a : Option Nat) (vs : List ViolationEntry) :
    ∀ j, (addViolationTracked ty sc now a vs).active = some j →
      ∃ e, (addViolationTracked ty sc now a vs).violations[j]? = some e ∧
        e.type = some ty := by
  intro j hj
  cases a with
  | none =>
      rw [addViolationTracked_ptr_none] at hj ⊢
      cases hj
      exact ⟨freshEntry ty sc now, List.getElem?_concat_length vs _, rfl⟩
  | some i =>
      cases he : vs[i]? with
      | none =>
          rw [addViolationTracked_stale ty sc now
            (fun e1 he1 => by rw [he] at he1; cases he1)] at hj ⊢
          cases hj
          exact ⟨freshEntry ty sc now, List.getElem?_concat_length vs _, rfl⟩
      | some e =>
          by_cases hty : e.type = some ty
          · rw [addViolationTracked_match ty sc now he hty] at hj ⊢
            cases hj
            have hlt : j < vs.length := (List.getElem?_eq_some.mp he).fst
            exact ⟨touched e now sc, List.getElem?_set_self hlt, by
              rw [touched_type]; exact hty⟩
          · rw [addViolationTracked_stale ty sc now
              (fun e1 he1 => by rw [he] at he1; cases he1; exact hty)] at hj ⊢
            cases hj
            exact ⟨freshEntry ty sc now, List.getElem?_concat_length vs _, rfl⟩

theorem storeStep_append (vs : List ViolationEntry) (x : ViolationEntry) :
    StoreStep vs (vs ++ [x]) := by
  refine ⟨Or.inr (by simp), fun j e he => ?_⟩
  have hlt : j < vs.length := (List.getElem?_eq_some.mp he).fst
  refine ⟨e, ?_, rfl⟩
  rw [List.getElem?_append, if_pos hlt]
  exact he

theorem addViolationTracked_storeStep (ty : DType) (sc : Option Rat)
    (now : Int) (a : Option Nat) (vs : List ViolationEntry) :
    StoreStep vs (addViolationTracked ty sc now a vs).violations := by
  cases a with
  | none => exact storeStep_append vs _
  | some i =>
      cases he : vs[i]? with
      | none =>
          rw [addViolationTracked_stale ty sc now
            (fun e1 he1 => by rw [he] at he1; cases he1)]
          exact storeStep_append vs _
      | some e =>
          by_cases hty : e.type = some ty
          · rw [addViolationTracked_match ty sc now he hty]
            have h := updateActiveEntry_storeEq vs (some i) ty now sc
            rw [updateActiveEntry_match ty now sc he hty] at h
            exact h.toStep
          · rw [addViolationTracked_stale ty sc now
              (fun e1 he1 => by rw [he] at he1; cases he1; exact hty)]
            exact storeStep_append vs _

@[simp]
theorem setPtr_violations (s : EngineState) (ty : DType) (p : Option Nat) :
    (setPtr s ty p).violations = s.violations := by
  cases ty <;> rfl

@[simp]
theorem ptrOf_setPtr_same (s : EngineState) (ty : DType) (p : Option Nat) :
    ptrOf (setPtr s ty p) ty = p := by
  cases ty <;> rfl

theorem ptrOf_setPtr_ne (s : EngineState) {ty ty' : DType} (p : Option Nat)
    (h : ty' ≠ ty) : ptrOf (setPtr s ty p) ty' = ptrOf s ty' := by
  cases ty <;> cases ty' <;> first | rfl | exact absurd rfl h

theorem ptrOf_setViolations (s : EngineState) (v : List ViolationEntry)
    (ty : DType) : ptrOf { s with violations := v } ty = ptrOf s ty := by
  cases ty <;> rfl

/-! ## Frame lemmas: what each tick phase can change -/

theorem stepCellPhone_frame (f : Frame) (now : Int) (s : EngineState) :
    (stepCellPhone f now s).1.detectionType = s.detectionType ∧
    (stepCellPhone f now s).1.detectionCount = s.detectionCount ∧
    (stepCellPhone f now s).1.faceNotVisibleCount = s.faceNotVisibleCount ∧
    (stepCellPhone f now s).1.lastCellPhoneDetectionTime =
      s.lastCellPhoneDetectionTime ∧
    (stepCellPhone f now s).1.activeFaceNotVisible = s.activeFaceNotVisible ∧
    (stepCellPhone f now s).1.activeMultipleFaces = s.activeMultipleFaces ∧
    ((stepCellPhone f now s).1.activeCellPhone = s.activeCellPhone ∨
      (stepCellPhone f now s).1.activeCellPhone = none) ∧
    StoreEq s.violations (stepCellPhone f now s).1.violations := by
  simp only [stepCellPhone]
  split
  · exact ⟨rfl, rfl, rfl, rfl, rfl, rfl, Or.inl rfl, StoreEq.refl _⟩
  · split
    · exact ⟨rfl, rfl, rfl, rfl, rfl, rfl, Or.inr rfl,
        updateActiveEntry_storeEq s.violations s.activeCellPhone
          DType.cell_phone now none⟩
    · exact ⟨rfl, rfl, rfl, rfl, rfl, rfl, Or.inl rfl, StoreEq.refl _⟩

theorem stepMultipleFaces_frame (f : Frame) (now : Int)
    (p : EngineState × Option DType) :
    (stepMultipleFaces f now p).1.detectionType = p.1.detectionType ∧
    (stepMultipleFaces f now p).1.detectionCount = p.1.detectionCount ∧
    (stepMultipleFaces f now p).1.faceNotVisibleCount =
      p.1.faceNotVisibleCount ∧
    (stepMultipleFaces f now p).1.lastCellPhoneDetectionTime =
      p.1.lastCellPhoneDetectionTime ∧
    (stepMultipleFaces f now p).1.activeFaceNotVisible =
      p.1.activeFaceNotVisible ∧
    (stepMultipleFaces f now p).1.activeCellPhone = p.1.activeCellPhone ∧
    ((stepMultipleFaces f now p).1.activeMultipleFaces =
        p.1.activeMultipleFaces ∨
      (stepMultipleFaces f now p).1.activeMultipleFaces = none) ∧
    StoreEq p.1.violations (stepMultipleFaces f now p).1.violations := by
  simp only [stepMultipleFaces]
  split
  · exact ⟨rfl, rfl, rfl, rfl, rfl, rfl, Or.inl rfl, StoreEq.refl _⟩
  · split
    · exact ⟨rfl, rfl, rfl, rfl, rfl, rfl, Or.inr rfl,
        updateActiveEntry_storeEq p.1.violations p.1.activeMultipleFaces
          DType.multiple_faces now none⟩
    · exact ⟨rfl, rfl, rfl, rfl, rfl, rfl, Or.inl rfl, StoreEq.refl _⟩

theorem stepFaceNotVisible_frame (f : Frame) (now : Int)
    (p : EngineState × Option DType) :
    ((stepFaceNotVisible f now p).1.detectionType = p.1.detectionType ∨
      (stepFaceNotVisible f now p).1.detectionType = none) ∧
    ((stepFaceNotVisible f now p).1.detectionCount = p.1.detectionCount ∨
      (stepFaceNotVisible f now p).1.detectionCount = 0) ∧
    (stepFaceNotVisible f now p).1.lastCellPhoneDetectionTime =
      p.1.lastCellPhoneDetectionTime ∧
    ((stepFaceNotVisible f now p).1.activeFaceNotVisible =
        p.1.activeFaceNotVisible ∨
      (stepFaceNotVisible f now p).1.activeFaceNotVisible = none) ∧
    (stepFaceNotVisible f now p).1.activeCellPhone = p.1.activeCellPhone ∧
    (stepFaceNotVisible f now p).1.activeMultipleFaces =
      p.1.activeMultipleFaces ∧
    StoreEq p.1.violations (stepFaceNotVisible f now p).1.violations := by
  simp only [stepFaceNotVisible]
  split
  · split
    · exact ⟨Or.inl rfl, Or.inl rfl, rfl, Or.inl rfl, rfl, rfl, StoreEq.refl _⟩
    · exact ⟨Or.inl rfl, Or.inl rfl, rfl, Or.inl rfl, rfl, rfl, StoreEq.refl _⟩
  · split
    · split
      · exact ⟨Or.inr rfl, Or.inr rfl, rfl, Or.inr rfl, rfl, rfl,
          updateActiveEntry_storeEq p.1.violations p.1.activeFaceNotVisible
            DType.face_not_visible now none⟩
      · exact ⟨Or.inl rfl, Or.inl rfl, rfl, Or.inl rfl, rfl, rfl,
          StoreEq.refl _⟩
    · exact ⟨Or.inl rfl, Or.inl rfl, rfl, Or.inl rfl, rfl, rfl, StoreEq.refl _⟩

theorem closeCellPhoneOnSwitch_frame (s : EngineState) (now : Int) :
    (closeCellPhoneOnSwitch s now).detectionType = s.detectionType ∧
    (closeCellPhoneOnSwitch s now).detectionCount = s.detectionCount ∧
    (closeCellPhoneOnSwitch s now).faceNotVisibleCount =
      s.faceNotVisibleCount ∧
    (closeCellPhoneOnSwitch s now).lastCellPhoneDetectionTime =
      s.lastCellPhoneDetectionTime ∧
    (closeCellPhoneOnSwitch s now).latestDetectionScore =
      s.latestDetectionScore ∧
    (closeCellPhoneOnSwitch s now).activeFaceNotVisible =
      s.activeFaceNotVisible ∧
    (closeCellPhoneOnSwitch s now).activeMultipleFaces =
      s.activeMultipleFaces ∧
    ((closeCellPhoneOnSwitch s now).activeCellPhone = s.activeCellPhone ∨
      (closeCellPhoneOnSwitch s now).activeCellPhone = none) ∧
    StoreEq s.violations (closeCellPhoneOnSwitch s now).violations := by
  simp only [closeCellPhoneOnSwitch]
  split
  · exact ⟨rfl, rfl, rfl, rfl, rfl, rfl, rfl, Or.inr rfl,
      updateActiveEntry_storeEq s.violations s.activeCellPhone
        DType.cell_phone now none⟩
  · exact ⟨rfl, rfl, rfl, rfl, rfl, rfl, rfl, Or.inl rfl, StoreEq.refl _⟩

theorem closeMultipleFacesOnSwitch_frame (s : EngineState) (now : Int) :
    (closeMultipleFacesOnSwitch s now).detectionType = s.detectionType ∧
    (closeMultipleFacesOnSwitch s now).detectionCount = s.detectionCount ∧
    (closeMultipleFacesOnSwitch s now).faceNotVisibleCount =
      s.faceNotVisibleCount ∧
    (closeMultipleFacesOnSwitch s now).lastCellPhoneDetectionTime =
      s.lastCellPhoneDetectionTime ∧
    (closeMultipleFacesOnSwitch s now).latestDetectionScore =
      s.latestDetectionScore ∧
    (closeMultipleFacesOnSwitch s now).activeFaceNotVisible =
      s.activeFaceNotVisible ∧
    (closeMultipleFacesOnSwitch s now).activeCellPhone = s.activeCellPhone ∧
    ((closeMultipleFacesOnSwitch s now).activeMultipleFaces =
        s.activeMultipleFaces ∨
      (closeMultipleFacesOnSwitch s now).activeMultipleFaces = none) ∧
    StoreEq s.violations (closeMultipleFacesOnSwitch s now).violations := by
  simp only [closeMultipleFacesOnSwitch]
  split
  · exact ⟨rfl, rfl, rfl, rfl, rfl, rfl, rfl, Or.inr rfl,
      updateActiveEntry_storeEq s.violations s.activeMultipleFaces
        DType.multiple_faces now none⟩
  · exact ⟨rfl, rfl, rfl, rfl, rfl, rfl, rfl, Or.inl rfl, StoreEq.refl _⟩

theorem trackerPhase_frame (s : EngineState) (current : Option DType)
    (now : Int) :
    (trackerPhase s current now).faceNotVisibleCount = s.faceNotVisibleCount ∧
    (trackerPhase s current now).lastCellPhoneDetectionTime =
      s.lastCellPhoneDetectionTime ∧
    (trackerPhase s current now).activeFaceNotVisible =
      s.activeFaceNotVisible ∧
    ((trackerPhase s current now).activeCellPhone = s.activeCellPhone ∨
      (trackerPhase s current now).activeCellPhone = none) ∧
    ((trackerPhase s current now).activeMultipleFaces = s.activeMultipleFaces ∨
      (trackerPhase s current now).activeMultipleFaces = none) ∧
    StoreEq s.violations (trackerPhase s current now).violations := by
  simp only [trackerPhase]
  split
  · exact ⟨rfl, rfl, rfl, Or.inl rfl, Or.inl rfl, StoreEq.refl _⟩
  · obtain ⟨-, -, h3, h4, -, h6, h7, h8, h9⟩ :=
      closeCellPhoneOnSwitch_frame s now
    obtain ⟨-, -, g3, g4, -, g6, g7, g8, g9⟩ :=
      closeMultipleFacesOnSwitch_frame (closeCellPhoneOnSwitch s now) now
    refine ⟨?_, ?_, ?_, ?_, ?_, ?_⟩
    · exact g3.trans h3
    · exact g4.trans h4
    · exact g6.trans h6
    · rcases h8 with h8 | h8
      · rw [g7, h8]; exact Or.inl rfl
      · rw [g7, h8]; exact Or.inr rfl
    · rcases g8 with g8 | g8
      · rw [g8, h7]; exact Or.inl rfl
      · rw [g8]; exact Or.inr rfl
    · exact StoreEq.trans h9 g9

theorem applyAddViolation_frame (s : EngineState) (ty : DType)
    (sc : Option Rat) (now : Int) :
    (applyAddViolation s ty sc now).detectionType = s.detectionType ∧
    (applyAddViolation s ty sc now).detectionCount = s.detectionCount ∧
    (applyAddViolation s ty sc now).faceNotVisibleCount =
      s.faceNotVisibleCount ∧
    (applyAddViolation s ty sc now).lastCellPhoneDetectionTime =
      s.lastCellPhoneDetectionTime ∧
    StoreStep s.violations (applyAddViolation s ty sc now).violations := by
  simp only [applyAddViolation]
  refine ⟨?_, ?_, ?_, ?_, ?_⟩
  all_goals cases ty
  all_goals simp only [setPtr, setPtr_violations]
  all_goals exact addViolationTracked_storeStep _ sc now _ s.violations

theorem triggerPhase_frame (s : EngineState) (now : Int) :
    (triggerPhase s now).detectionType = s.detectionType ∧
    (triggerPhase s now).detectionCount = s.detectionCount ∧
    (triggerPhase s now).faceNotVisibleCount = s.faceNotVisibleCount ∧
    StoreStep s.violations (triggerPhase s now).violations := by
  simp only [triggerPhase]
  split
  · split
    · have h := applyAddViolation_frame
        { s with lastCellPhoneDetectionTime := now } DType.cell_phone
        (violationScoreFor s DType.cell_phone) now
      exact ⟨h.1, h.2.1, h.2.2.1, h.2.2.2.2⟩
    · split
      · exact ⟨rfl, rfl, rfl,
          (updateActiveEntry_storeEq s.violations s.activeCellPhone
            DType.cell_phone now _).toStep⟩
      · exact ⟨rfl, rfl, rfl, (StoreEq.refl _).toStep⟩
  · split
    · split
      · next ty _ =>
          have h := applyAddViolation_frame s ty (violationScoreFor s ty) now
          exact ⟨h.1, h.2.1, h.2.2.1, h.2.2.2.2⟩
      · exact ⟨rfl, rfl, rfl, (StoreEq.refl _).toStep⟩
    · split
      · exact ⟨rfl, rfl, rfl,
          (updateActiveEntry_storeEq s.violations s.activeFaceNotVisible
            DType.face_not_visible now none).toStep⟩
      · split
        · exact ⟨rfl, rfl, rfl,
            (updateActiveEntry_storeEq s.violations s.activeCellPhone
              DType.cell_phone now _).toStep⟩
        · split
          · exact ⟨rfl, rfl, rfl,
              (updateActiveEntry_storeEq s.violations s.activeMultipleFaces
                DType.multiple_faces now none).toStep⟩
          · exact ⟨rfl, rfl, rfl, (StoreEq.refl _).toStep⟩

/-! ## The per-kind active pointer invariant (C1) -/

/-- Every set active pointer addresses an in-bounds entry of its own kind. -/
def PtrInv (s : EngineState) : Prop :=
  ∀ (ty : DType) (i : Nat), ptrOf s ty = some i →
    ∃ e, s.violations[i]? = some e ∧ e.type = some ty

theorem entrySkel_type {e e' : ViolationEntry}
    (h : entrySkel e' = entrySkel e) : e'.type = e.type :=
  congrArg Prod.fst h

theorem PtrInv.mono {s t : EngineState} (h : PtrInv s)
    (hv : StoreEq s.violations t.violations)
    (hp : ∀ ty, ptrOf t ty = ptrOf s ty ∨ ptrOf t ty = none) : PtrInv t := by
  intro ty i hi
  rcases hp ty with hp1 | hp1
  · rw [hp1] at hi
    obtain ⟨e, he, hety⟩ := h ty i hi
    obtain ⟨e1, he1, hs⟩ := hv.2 i e he
    exact ⟨e1, he1, by rw [entrySkel_type hs, hety]⟩
  · rw [hp1] at hi
    cases hi

theorem PtrInv.mono_step {s t : EngineState} (h : PtrInv s)
    (hv : StoreStep s.violations t.violations)
    (hp : ∀ ty, ptrOf t ty = ptrOf s ty ∨ ptrOf t ty = none) : PtrInv t := by
  intro ty i hi
  rcases hp ty with hp1 | hp1
  · rw [hp1] at hi
    obtain ⟨e, he, hety⟩ := h ty i hi
    obtain ⟨e1, he1, hs⟩ := hv.2 i e he
    exact ⟨e1, he1, by rw [entrySkel_type hs, hety]⟩
  · rw [hp1] at hi
    cases hi

/-- Helper: read off the three pointer fields as `ptrOf` facts. -/
theorem ptrOf_cases {s t : EngineState}
    (hf : t.activeFaceNotVisible = s.activeFaceNotVisible ∨
      t.activeFaceNotVisible = none)
    (hc : t.activeCellPhone = s.activeCellPhone ∨ t.activeCellPhone = none)
    (hm : t.activeMultipleFaces = s.activeMultipleFaces ∨
      t.activeMultipleFaces = none) :
    ∀ ty, ptrOf t ty = ptrOf s ty ∨ ptrOf t ty = none := by
  intro ty
  cases ty
  · exact hc
  · exact hm
  · exact hf

theorem PtrInv_classifyPhase {s : EngineState} (h : PtrInv s) (f : Frame)
    (now : Int) : PtrInv (classifyPhase s f now).1 := by
  obtain ⟨-, -, -, -, h5, h6, h7, h8⟩ := stepCellPhone_frame f now s
  obtain ⟨-, -, -, -, g5, g6, g7, g8⟩ :=
    stepMultipleFaces_frame f now (stepCellPhone f now s)
  obtain ⟨-, -, -, k4, k5, k6, k7⟩ :=
    stepFaceNotVisible_frame f now
      (stepMultipleFaces f now (stepCellPhone f now s))
  have h1 : PtrInv (stepCellPhone f now s).1 :=
    h.mono h8 (ptrOf_cases (Or.inl h5) h7 (Or.inl h6))
  have h2 : PtrInv (stepMultipleFaces f now (stepCellPhone f now s)).1 :=
    h1.mono g8 (ptrOf_cases (Or.inl g5) (Or.inl g6) g7)
  exact h2.mono k7 (ptrOf_cases k4 (Or.inl k5) (Or.inl k6))

theorem PtrInv_trackerPhase {s : EngineState} (h : PtrInv s)
    (current : Option DType) (now : Int) :
    PtrInv (trackerPhase s current now) := by
  obtain ⟨-, -, h3, h4, h5, h6⟩ := trackerPhase_frame s current now
  exact h.mono h6 (ptrOf_cases (Or.inl h3) h4 h5)

theorem PtrInv_applyAddViolation {s : EngineState} (h : PtrInv s) (ty : DType)
    (sc : Option Rat) (now : Int) : PtrInv (applyAddViolation s ty sc now) := by
  intro ty' i hi
  simp only [applyAddViolation] at hi ⊢
  by_cases hty : ty' = ty
  · subst hty
    rw [ptrOf_setPtr_same] at hi
    obtain ⟨e, he, hety⟩ :=
      addViolationTracked_active_valid ty' sc now (ptrOf s ty') s.violations i hi
    rw [setPtr_violations]
    exact ⟨e, he, hety⟩
  · rw [ptrOf_setPtr_ne _ _ hty, ptrOf_setViolations] at hi
    obtain ⟨e, he, hety⟩ := h ty' i hi
    obtain ⟨e1, he1, hs⟩ :=
      (addViolationTracked_storeStep ty sc now (ptrOf s ty) s.violations).2
        i e he
    rw [setPtr_violations]
    exact ⟨e1, he1, by rw [entrySkel_type hs, hety]⟩

theorem PtrInv_lastCP {s : EngineState} (h : PtrInv s) (x : Int) :
    PtrInv { s with lastCellPhoneDetectionTime := x } := by
  intro ty i hi
  have : ptrOf { s with lastCellPhoneDetectionTime := x } ty = ptrOf s ty := by
    cases ty <;> rfl
  rw [this] at hi
  exact h ty i hi

theorem PtrInv_triggerPhase {s : EngineState} (h : PtrInv s) (now : Int) :
    PtrInv (triggerPhase s now) := by
  simp only [triggerPhase]
  split
  · split
    · exact PtrInv_applyAddViolation (PtrInv_lastCP h now) DType.cell_phone _
        now
    · split
      · exact h.mono (updateActiveEntry_storeEq s.violations s.activeCellPhone
          DType.cell_phone now _)
          (ptrOf_cases (Or.inl rfl) (Or.inl rfl) (Or.inl rfl))
      · exact h
  · split
    · split
      · next ty _ => exact PtrInv_applyAddViolation h ty _ now
      · exact h
    · split
      · exact h.mono (updateActiveEntry_storeEq s.violations
          s.activeFaceNotVisible DType.face_not_visible now none)
          (ptrOf_cases (Or.inl rfl) (Or.inl rfl) (Or.inl rfl))
      · split
        · exact h.mono (updateActiveEntry_storeEq s.violations s.activeCellPhone
            DType.cell_phone now _)
            (ptrOf_cases (Or.inl rfl) (Or.inl rfl) (Or.inl rfl))
        · split
          · exact h.mono (updateActiveEntry_storeEq s.violations
              s.activeMultipleFaces DType.multiple_faces now none)
              (ptrOf_cases (Or.inl rfl) (Or.inl rfl) (Or.inl rfl))
          · exact h

theorem PtrInv_tick {s : EngineState} (h : PtrInv s) (f : Frame) (now : Int) :
    PtrInv (tick s f now) :=
  PtrInv_triggerPhase
    (PtrInv_trackerPhase (PtrInv_classifyPhase h f now)
      (classifyPhase s f now).2 now) now

theorem PtrInv_initState : PtrInv initState := by
  intro ty i hi
  cases ty <;> cases hi

theorem PtrInv_reachable {s : EngineState} (h : Reachable s) : PtrInv s := by
  induction h with
  | init => exact PtrInv_initState
  | step s f now _ ih => exact PtrInv_tick ih f now

/-! ## Concrete frames and traces used as test inputs -/

/-- An object detection labelled `cell phone` with the given score. -/
def phoneDet (q : Rat) : Detection :=
  { categories := [{ categoryName := "cell phone", score := q }]
    boundingBox := none }

/-- One face visible and a phone detected at score 9/10. -/
def phoneFaceFrame : Frame :=
  { faceCount := 1, objectDetections := [phoneDet (mkRat 9 10)] }

/-- No face visible and a phone detected at score 9/10. -/
def phoneNoFaceFrame : Frame :=
  { faceCount := 0, objectDetections := [phoneDet (mkRat 9 10)] }

/-- One face visible, nothing else. -/
def oneFaceFrame : Frame := { faceCount := 1, objectDetections := [] }

/-- No detections at all: zero faces, no objects. -/
def noFaceFrame : Frame := { faceCount := 0, objectDetections := [] }

/-- `n` consecutive empty ticks, 100 ms apart, starting at t = 100100 ms. -/
def noFaceTicks (n : Nat) : List (Frame × Int) :=
  (List.range n).map (fun j => (noFaceFrame, 100000 + 100 * ((j : Int) + 1)))

/-- Phone-and-face ticks at the given timestamps. -/
def phoneTicks (ts : List Int) : List (Frame × Int) :=
  ts.map (fun t => (phoneFaceFrame, t))

/-! ## C1 -/

/-- C1: for every tick sequence from the initial state, at most one violation
interval per kind is open at any tick — each kind's active pointer (an
`Option Nat`) addresses at most one entry, and on every reachable state a set
pointer addresses an in-bounds entry of its own kind (`PtrInv`); moreover a
pointer whose entry no longer matches the kind is treated as stale by
`addViolation` and dropped before the new interval of that kind is created
and installed in the pointer. -/
theorem C1_at_most_one_open_interval_per_kind :
    (∀ s, Reachable s → PtrInv s) ∧
    (∀ (vs : List ViolationEntry) (i : Nat) (ty : DType) (sc : Option Rat)
        (now : Int), (∀ e, vs[i]? = some e → e.type ≠ some ty) →
      addViolationTracked ty sc now (some i) vs =
        ⟨vs ++ [freshEntry ty sc now], some vs.length⟩) :=
  ⟨fun _ h => PtrInv_reachable h,
   fun _ _ ty sc now h => addViolationTracked_stale ty sc now h⟩

/-- Witness for C1 at concrete inputs: the invariant after one concrete tick,
and the stale-pointer reset of `addViolation` on a one-entry store whose
pointed entry has the wrong kind. -/
theorem C1_witness :
    PtrInv (tick initState phoneFaceFrame 100000) ∧
    addViolationTracked DType.cell_phone none 100000 (some 0)
        [freshEntry DType.multiple_faces none 50000] =
      ⟨[freshEntry DType.multiple_faces none 50000,
        freshEntry DType.cell_phone none 100000], some 1⟩ :=
  ⟨C1_at_most_one_open_interval_per_kind.1 _
      (Reachable.step _ _ _ Reachable.init),
   C1_at_most_one_open_interval_per_kind.2 _ 0 _ none 100000 (by decide)⟩

/-! ## C2 -/

/-- Helper for C2: the trigger step with a confirmed kind, no open interval of
that kind, and (for cell phone) an elapsed debounce window appends exactly the
fresh `±10s` entry and records its index in the kind's pointer. -/
theorem triggerPhase_opens (m : EngineState) (now : Int) (ty : DType)
    (hconf : m.detectionType = some ty)
    (hcount : requiredConsecutive (some ty) ≤ m.detectionCount)
    (hptr : ptrOf m ty = none)
    (hdeb : ty = DType.cell_phone →
      1000 ≤ now - m.lastCellPhoneDetectionTime) :
    (triggerPhase m now).violations =
      m.violations ++ [freshEntry ty (violationScoreFor m ty) now] ∧
    ptrOf (triggerPhase m now) ty = some m.violations.length := by
  have hne : m.detectionType ≠ none := by rw [hconf]; exact Option.noConfusion
  have hcount1 : requiredConsecutive m.detectionType ≤ m.detectionCount := by
    rw [hconf]; exact hcount
  simp only [triggerPhase]
  by_cases hcp : ty = DType.cell_phone
  · subst hcp
    rw [if_pos ⟨hconf, hcount1, hne⟩, if_pos (hdeb rfl)]
    have hptr1 : ptrOf { m with lastCellPhoneDetectionTime := now }
        DType.cell_phone = none := hptr
    simp only [applyAddViolation, hptr1, addViolationTracked_ptr_none,
      setPtr_violations, ptrOf_setPtr_same]
    exact ⟨trivial, trivial⟩
  · rw [if_neg (fun hand => hcp (by
      have := hand.1
      rw [hconf] at this
      cases this
      rfl))]
    rw [if_pos ⟨hcount1, hne⟩]
    simp only [hconf]
    simp only [applyAddViolation, hptr, addViolationTracked_ptr_none,
      setPtr_violations, ptrOf_setPtr_same]
    exact ⟨trivial, trivial⟩

/-- C2: whenever a condition is confirmed with exactly the required
consecutive count at the tracker step of a tick, no interval of that kind is
open, and (for the debounced kind) the debounce gate permits, the tick appends
exactly one new interval to the store — with `violationTime = now`,
`startTime = now − 10s`, `endTime = now + 10s`, carrying the tick's score —
and records its index in that kind's active pointer. -/
theorem C2_confirmation_opens_one_interval (s : EngineState) (f : Frame)
    (now : Int) (ty : DType)
    (hconf : (preTriggerState s f now).detectionType = some ty)
    (hcount : (preTriggerState s f now).detectionCount =
      requiredConsecutive (some ty))
    (hptr : ptrOf (preTriggerState s f now) ty = none)
    (hdeb : ty = DType.cell_phone →
      1000 ≤ now - (preTriggerState s f now).lastCellPhoneDetectionTime) :
    (tick s f now).violations = (preTriggerState s f now).violations ++
      [freshEntry ty (violationScoreFor (preTriggerState s f now) ty) now] ∧
    ptrOf (tick s f now) ty =
      some (preTriggerState s f now).violations.length ∧
    (freshEntry ty (violationScoreFor (preTriggerState s f now) ty)
        now).violationTime = now ∧
    (freshEntry ty (violationScoreFor (preTriggerState s f now) ty)
        now).startTime = now - 10000 ∧
    (freshEntry ty (violationScoreFor (preTriggerState s f now) ty)
        now).endTime = now + 10000 := by
  have h := triggerPhase_opens (preTriggerState s f now) now ty hconf
    hcount.ge hptr hdeb
  exact ⟨h.1, h.2, rfl, rfl, rfl⟩

/-- Witness for C2: after two phone ticks the cell-phone condition reaches its
required count 3 on the third tick and opens the single interval. -/
theorem C2_witness :
    (tick (runTrace (phoneTicks [100000, 100100])) phoneFaceFrame
        100200).violations =
      (preTriggerState (runTrace (phoneTicks [100000, 100100])) phoneFaceFrame
          100200).violations ++
        [freshEntry DType.cell_phone
          (violationScoreFor
            (preTriggerState (runTrace (phoneTicks [100000, 100100]))
              phoneFaceFrame 100200) DType.cell_phone) 100200] ∧
    ptrOf (tick (runTrace (phoneTicks [100000, 100100])) phoneFaceFrame 100200)
        DType.cell_phone =
      some (preTriggerState (runTrace (phoneTicks [100000, 100100]))
          phoneFaceFrame 100200).violations.length ∧
    (freshEntry DType.cell_phone
        (violationScoreFor
          (preTriggerState (runTrace (phoneTicks [100000, 100100]))
            phoneFaceFrame 100200) DType.cell_phone) 100200).violationTime =
      100200 ∧
    (freshEntry DType.cell_phone
        (violationScoreFor
          (preTriggerState (runTrace (phoneTicks [100000, 100100]))
            phoneFaceFrame 100200) DType.cell_phone) 100200).startTime =
      100200 - 10000 ∧
    (freshEntry DType.cell_phone
        (violationScoreFor
          (preTriggerState (runTrace (phoneTicks [100000, 100100]))
            phoneFaceFrame 100200) DType.cell_phone) 100200).endTime =
      100200 + 10000 :=
  C2_confirmation_opens_one_interval _ _ 100200 DType.cell_phone (by decide)
    (by decide) (by decide) (fun _ => by decide)

/-! ## C4 -/

set_option maxRecDepth 10000 in
/-- C4: evaluating the engine on 25 consecutive zero-detection ticks (the
claim's failing input): NO subject-absent interval exists through tick 25
(the claim and spec say one opens at tick 20).  The dedicated face-miss
counter must first reach 20 before `face_not_visible` even becomes the
tracker's candidate, and the tracker then demands another 20 consecutive
ticks, so the first interval only opens at tick 39 (timestamp 103900),
as the third conjunct shows. -/
theorem C4_no_interval_through_tick_25 :
    (runTrace (noFaceTicks 25)).violations = [] ∧
    (runTrace (noFaceTicks 38)).violations = [] ∧
    (runTrace (noFaceTicks 39)).violations =
      [freshEntry DType.face_not_visible (some 0) 103900] := by
  decide

/-! ## C5 -/

set_option maxRecDepth 10000 in
/-- C5: evaluating the engine at the failing input.  After 39 zero-detection
ticks a subject-absent interval is open (pointer `some 0`, tracked kind
`face_not_visible`).  The next tick presents a cell phone (still no face), so
the selected candidate switches to `cell_phone` — yet the subject-absent
interval is NOT closed: its pointer stays `some 0` and its stored `endTime`
stays 113900 (the opening value) instead of being set to now = 104000.  The
switch branch of the tracker only closes `cell_phone` and `multiple_faces`
intervals. -/
theorem C5_switch_leaves_subject_absent_open :
    (runTrace (noFaceTicks 39)).activeFaceNotVisible = some 0 ∧
    (runTrace (noFaceTicks 39)).detectionType = some DType.face_not_visible ∧
    (runTrace (noFaceTicks 39 ++ [(phoneNoFaceFrame, 104000)])).detectionType =
      some DType.cell_phone ∧
    (runTrace (noFaceTicks 39 ++
        [(phoneNoFaceFrame, 104000)])).activeFaceNotVisible = some 0 ∧
    (runTrace (noFaceTicks 39 ++ [(phoneNoFaceFrame, 104000)])).violations =
      [freshEntry DType.face_not_visible (some 0) 103900] ∧
    (freshEntry DType.face_not_visible (some 0) 103900).endTime = 113900 := by
  decide

/-! ## C8 -/

/-- C8 counterexample: one tick with a single face and no objects, from the
initial tracker state {None, 0}, yields the tracker state {None, 1}:
`consecutiveCount > 0` with `activeKind = None`, refuting the claimed
invariant `consecutiveCount > 0 ⇒ activeKind ≠ None`. -/
theorem C8_counterexample :
    (tick initState oneFaceFrame 100000).detectionType = none ∧
    (tick initState oneFaceFrame 100000).detectionCount = 1 := by
  decide

/-- C8 amended: the tracker is reset to {None, 0} whenever the tick's
candidate is none and differs from the tracked kind; but when candidate and
tracked kind are both None the counter increments instead (so
`consecutiveCount > 0 ∧ activeKind = None` is reachable); nevertheless a
confirmation never fires while the tracked kind is None — the trigger step is
the identity there. -/
theorem C8_tracker_reset_and_idle_count :
    (∀ (s : EngineState) (now : Int), s.detectionType ≠ none →
      (trackerPhase s none now).detectionType = none ∧
      (trackerPhase s none now).detectionCount = 0) ∧
    (∀ (s : EngineState) (now : Int), s.detectionType = none →
      (trackerPhase s none now).detectionType = none ∧
      (trackerPhase s none now).detectionCount = s.detectionCount + 1) ∧
    (∀ (s : EngineState) (now : Int), s.detectionType = none →
      triggerPhase s now = s) := by
  refine ⟨fun s now h => ?_, fun s now h => ?_, fun s now h => ?_⟩
  · rw [trackerPhase, if_neg (fun hc => h hc.symm)]
    exact ⟨rfl, rfl⟩
  · rw [trackerPhase, if_pos h.symm]
    exact ⟨h, rfl⟩
  · simp only [triggerPhase, h]
    rw [if_neg (fun hc => Option.noConfusion hc.1)]
    rw [if_neg (fun hc => hc.2 rfl)]
    rw [if_neg (fun hc => Option.noConfusion hc.1)]
    rw [if_neg (fun hc => Option.noConfusion hc.1)]
    rw [if_neg (fun hc => Option.noConfusion hc.1)]

/-- Witness for C8's amended theorem at concrete inputs: a reset after a
tracked cell-phone tick meets an empty candidate, and the trigger identity on
the initial (None-tracked) state. -/
theorem C8_witness :
    ((trackerPhase (tick initState phoneFaceFrame 100000) none
        100100).detectionType = none ∧
      (trackerPhase (tick initState phoneFaceFrame 100000) none
        100100).detectionCount = 0) ∧
    triggerPhase initState 100000 = initState :=
  ⟨C8_tracker_reset_and_idle_count.1 _ 100100 (by decide),
   C8_tracker_reset_and_idle_count.2.2 initState 100000 rfl⟩

/-! ## Continuation lemmas (used by C3 and C6) -/

/-- The frame re-confirms kind `ty` under the tick's precedence order
(cell phone, then multiple faces, then face not visible). -/
def reconfirmFrame (ty : DType) (f : Frame) : Prop :=
  match ty with
  | DType.cell_phone => (scanCellPhone f.objectDetections).1 = true
  | DType.multiple_faces =>
      (scanCellPhone f.objectDetections).1 = false ∧ 1 < f.faceCount
  | DType.face_not_visible =>
      (scanCellPhone f.objectDetections).1 = false ∧ f.faceCount = 0

instance (ty : DType) (f : Frame) : Decidable (reconfirmFrame ty f) := by
  unfold reconfirmFrame
  cases ty <;> infer_instance

/-- A confirmed, tracked, open interval of kind `ty` at store index `i`. -/
def ContState (ty : DType) (i : Nat) (s : EngineState) : Prop :=
  s.detectionType = some ty ∧
  requiredConsecutive (some ty) ≤ s.detectionCount ∧
  ptrOf s ty = some i ∧
  (∃ e, s.violations[i]? = some e ∧ e.type = some ty) ∧
  (ty = DType.face_not_visible → 20 ≤ s.faceNotVisibleCount)

theorem stepCellPhone_scan_true (f : Frame) (now : Int) (s : EngineState)
    (h : (scanCellPhone f.objectDetections).1 = true) :
    stepCellPhone f now s =
      ({ s with
          latestDetectionScore :=
            some (DType.cell_phone, (scanCellPhone f.objectDetections).2) },
        some DType.cell_phone) := by
  simp [stepCellPhone, h]

theorem stepCellPhone_scan_false (f : Frame) (now : Int) (s : EngineState)
    (h : (scanCellPhone f.objectDetections).1 = false) :
    (stepCellPhone f now s).2 = none ∧
    (stepCellPhone f now s).1.detectionType = s.detectionType ∧
    (stepCellPhone f now s).1.detectionCount = s.detectionCount ∧
    (stepCellPhone f now s).1.faceNotVisibleCount = s.faceNotVisibleCount ∧
    (stepCellPhone f now s).1.lastCellPhoneDetectionTime =
      s.lastCellPhoneDetectionTime ∧
    (stepCellPhone f now s).1.activeFaceNotVisible = s.activeFaceNotVisible ∧
    (stepCellPhone f now s).1.activeMultipleFaces = s.activeMultipleFaces ∧
    (stepCellPhone f now s).1.violations.length = s.violations.length ∧
    (∀ (j : Nat) (e : ViolationEntry), s.violations[j]? = some e →
      e.type ≠ some DType.cell_phone →
      (stepCellPhone f now s).1.violations[j]? = some e) := by
  simp only [stepCellPhone, h, Bool.false_eq_true, if_false]
  split
  · exact ⟨rfl, rfl, rfl, rfl, rfl, rfl, rfl,
      updateActiveEntry_length s.violations s.activeCellPhone
        DType.cell_phone now none,
      fun j e he hty =>
        updateActiveEntry_other_type s.activeCellPhone DType.cell_phone now
          none he hty⟩
  · exact ⟨rfl, rfl, rfl, rfl, rfl, rfl, rfl, rfl, fun _ _ he _ => he⟩

theorem stepMultipleFaces_confirm (f : Frame) (now : Int)
    (p : EngineState × Option DType) (h2 : p.2 = none)
    (hfc : 1 < f.faceCount) :
    stepMultipleFaces f now p =
      ({ p.1 with
          latestDetectionScore :=
            some (DType.multiple_faces, (f.faceCount : Rat)) },
        some DType.multiple_faces) := by
  simp only [stepMultipleFaces]
  rw [if_pos ⟨hfc, h2⟩]

theorem stepMultipleFaces_no_confirm (f : Frame) (now : Int)
    (p : EngineState × Option DType) (h : ¬(1 < f.faceCount ∧ p.2 = none)) :
    (stepMultipleFaces f now p).2 = p.2 ∧
    (stepMultipleFaces f now p).1.detectionType = p.1.detectionType ∧
    (stepMultipleFaces f now p).1.detectionCount = p.1.detectionCount ∧
    (stepMultipleFaces f now p).1.faceNotVisibleCount =
      p.1.faceNotVisibleCount ∧
    (stepMultipleFaces f now p).1.lastCellPhoneDetectionTime =
      p.1.lastCellPhoneDetectionTime ∧
    (stepMultipleFaces f now p).1.latestDetectionScore =
      p.1.latestDetectionScore ∧
    (stepMultipleFaces f now p).1.activeFaceNotVisible =
      p.1.activeFaceNotVisible ∧
    (stepMultipleFaces f now p).1.activeCellPhone = p.1.activeCellPhone ∧
    (stepMultipleFaces f now p).1.violations.length =
      p.1.violations.length ∧
    (∀ (j : Nat) (e : ViolationEntry), p.1.violations[j]? = some e →
      e.type ≠ some DType.multiple_faces →
      (stepMultipleFaces f now p).1.violations[j]? = some e) := by
  simp only [stepMultipleFaces]
  rw [if_neg h]
  split
  · exact ⟨rfl, rfl, rfl, rfl, rfl, rfl, rfl, rfl,
      updateActiveEntry_length p.1.violations p.1.activeMultipleFaces
        DType.multiple_faces now none,
      fun j e he hty =>
        updateActiveEntry_other_type p.1.activeMultipleFaces
          DType.multiple_faces now none he hty⟩
  · exact ⟨rfl, rfl, rfl, rfl, rfl, rfl, rfl, rfl, rfl, fun _ _ he _ => he⟩

theorem stepFaceNotVisible_confirm (f : Frame) (now : Int)
    (p : EngineState × Option DType) (h2 : p.2 = none)
    (hfc : f.faceCount = 0) (hcnt : 20 ≤ p.1.faceNotVisibleCount + 1) :
    stepFaceNotVisible f now p =
      ({ p.1 with
          faceNotVisibleCount := p.1.faceNotVisibleCount + 1
          latestDetectionScore := some (DType.face_not_visible, 0) },
        some DType.face_not_visible) := by
  simp only [stepFaceNotVisible]
  rw [if_pos ⟨hfc, h2⟩, if_pos hcnt]

theorem stepFaceNotVisible_no_reset (f : Frame) (now : Int)
    (p : EngineState × Option DType) (h : p.2 ≠ none)
    (hd : p.1.detectionType ≠ some DType.face_not_visible) :
    (stepFaceNotVisible f now p).2 = p.2 ∧
    (stepFaceNotVisible f now p).1.detectionType = p.1.detectionType ∧
    (stepFaceNotVisible f now p).1.detectionCount = p.1.detectionCount ∧
    (stepFaceNotVisible f now p).1.lastCellPhoneDetectionTime =
      p.1.lastCellPhoneDetectionTime ∧
    (stepFaceNotVisible f now p).1.latestDetectionScore =
      p.1.latestDetectionScore ∧
    (stepFaceNotVisible f now p).1.activeFaceNotVisible =
      p.1.activeFaceNotVisible ∧
    (stepFaceNotVisible f now p).1.activeCellPhone = p.1.activeCellPhone ∧
    (stepFaceNotVisible f now p).1.activeMultipleFaces =
      p.1.activeMultipleFaces ∧
    (stepFaceNotVisible f now p).1.violations = p.1.violations := by
  simp only [stepFaceNotVisible]
  rw [if_neg (fun hc => h hc.2)]
  by_cases hfc : 0 < f.faceCount
  · rw [if_pos hfc, if_neg hd]
    exact ⟨rfl, rfl, rfl, rfl, rfl, rfl, rfl, rfl, rfl⟩
  · rw [if_neg hfc]
    exact ⟨rfl, rfl, rfl, rfl, rfl, rfl, rfl, rfl, rfl⟩

theorem trackerPhase_same (s : EngineState) (current : Option DType)
    (now : Int) (h : current = s.detectionType) :
    trackerPhase s current now =
      { s with detectionCount := s.detectionCount + 1 } := by
  rw [trackerPhase, if_pos h]

theorem ptrOf_count_bump (s : EngineState) (n : Nat) (ty : DType) :
    ptrOf { s with detectionCount := n } ty = ptrOf s ty := by
  cases ty <;> rfl

/-- Classification under re-confirmation of the tracked kind: the candidate
stays `ty`, tracker fields and `ty`-pointer are untouched, entries of kind
`ty` are untouched (only other kinds may be closed), and the face-miss bound
is maintained. -/
theorem classifyPhase_reconfirm (ty : DType) (s : EngineState) (f : Frame)
    (now : Int) (hd : s.detectionType = some ty) (hf : reconfirmFrame ty f)
    (hfnv : ty = DType.face_not_visible → 20 ≤ s.faceNotVisibleCount) :
    (classifyPhase s f now).2 = some ty ∧
    (classifyPhase s f now).1.detectionType = s.detectionType ∧
    (classifyPhase s f now).1.detectionCount = s.detectionCount ∧
    ptrOf (classifyPhase s f now).1 ty = ptrOf s ty ∧
    (∀ (j : Nat) (e : ViolationEntry), s.violations[j]? = some e →
      e.type = some ty → (classifyPhase s f now).1.violations[j]? = some e) ∧
    (classifyPhase s f now).1.violations.length = s.violations.length ∧
    (ty = DType.face_not_visible →
      20 ≤ (classifyPhase s f now).1.faceNotVisibleCount) ∧
    (classifyPhase s f now).1.lastCellPhoneDetectionTime =
      s.lastCellPhoneDetectionTime := by
  cases ty with
  | cell_phone =>
      have h1 := stepCellPhone_scan_true f now s hf
      have p2eq : (stepCellPhone f now s).2 = some DType.cell_phone := by
        rw [h1]
      have pdt : (stepCellPhone f now s).1.detectionType = s.detectionType := by
        rw [h1]
      have pdc : (stepCellPhone f now s).1.detectionCount =
          s.detectionCount := by rw [h1]
      have pcp : (stepCellPhone f now s).1.activeCellPhone =
          s.activeCellPhone := by rw [h1]
      have pvs : (stepCellPhone f now s).1.violations = s.violations := by
        rw [h1]
      have plast : (stepCellPhone f now s).1.lastCellPhoneDetectionTime =
          s.lastCellPhoneDetectionTime := by rw [h1]
      obtain ⟨m1, m2, m3, -, m5, -, -, m8, m9, m10⟩ :=
        stepMultipleFaces_no_confirm f now (stepCellPhone f now s)
          (fun hc => by rw [p2eq] at hc; exact Option.noConfusion hc.2)
      obtain ⟨k1, k2, k3, k4, -, -, k7, -, k9⟩ :=
        stepFaceNotVisible_no_reset f now
          (stepMultipleFaces f now (stepCellPhone f now s))
          (by rw [m1, p2eq]; exact fun hc => Option.noConfusion hc)
          (by
            rw [m2, pdt, hd]
            exact fun hc => DType.noConfusion (Option.some.inj hc))
      unfold classifyPhase
      refine ⟨?_, ?_, ?_, ?_, ?_, ?_, fun hc => DType.noConfusion hc, ?_⟩
      · rw [k1, m1, p2eq]
      · rw [k2, m2, pdt]
      · rw [k3, m3, pdc]
      · show (stepFaceNotVisible f now
          (stepMultipleFaces f now (stepCellPhone f now s))).1.activeCellPhone =
          s.activeCellPhone
        rw [k7, m8, pcp]
      · intro j e he hty
        rw [k9]
        refine m10 j e ?_ ?_
        · rw [pvs]
          exact he
        · rw [hty]
          exact fun hc => DType.noConfusion (Option.some.inj hc)
      · rw [k9, m9, pvs]
      · rw [k4, m5, plast]
  | multiple_faces =>
      obtain ⟨a1, a2, a3, -, a5, -, a7, a8, a9⟩ :=
        stepCellPhone_scan_false f now s hf.1
      have h2 := stepMultipleFaces_confirm f now (stepCellPhone f now s) a1
        hf.2
      have m1 : (stepMultipleFaces f now (stepCellPhone f now s)).2 =
          some DType.multiple_faces := by rw [h2]
      have m2 : (stepMultipleFaces f now
          (stepCellPhone f now s)).1.detectionType =
          (stepCellPhone f now s).1.detectionType := by rw [h2]
      have m3 : (stepMultipleFaces f now
          (stepCellPhone f now s)).1.detectionCount =
          (stepCellPhone f now s).1.detectionCount := by rw [h2]
      have m7 : (stepMultipleFaces f now
          (stepCellPhone f now s)).1.activeMultipleFaces =
          (stepCellPhone f now s).1.activeMultipleFaces := by rw [h2]
      have m9 : (stepMultipleFaces f now (stepCellPhone f now s)).1.violations =
          (stepCellPhone f now s).1.violations := by rw [h2]
      have m5 : (stepMultipleFaces f now
          (stepCellPhone f now s)).1.lastCellPhoneDetectionTime =
          (stepCellPhone f now s).1.lastCellPhoneDetectionTime := by rw [h2]
      obtain ⟨k1, k2, k3, k4, -, -, -, k8, k9⟩ :=
        stepFaceNotVisible_no_reset f now
          (stepMultipleFaces f now (stepCellPhone f now s))
          (by rw [m1]; exact fun hc => Option.noConfusion hc)
          (by
            rw [m2, a2, hd]
            exact fun hc => DType.noConfusion (Option.some.inj hc))
      unfold classifyPhase
      refine ⟨?_, ?_, ?_, ?_, ?_, ?_, fun hc => DType.noConfusion hc, ?_⟩
      · rw [k1, m1]
      · rw [k2, m2, a2]
      · rw [k3, m3, a3]
      · show (stepFaceNotVisible f now
          (stepMultipleFaces f now
            (stepCellPhone f now s))).1.activeMultipleFaces =
          s.activeMultipleFaces
        rw [k8, m7, a7]
      · intro j e he hty
        rw [k9, m9]
        refine a9 j e he ?_
        rw [hty]
        exact fun hc => DType.noConfusion (Option.some.inj hc)
      · rw [k9]
        rw [congrArg List.length m9]
        exact a8
      · rw [k4, m5, a5]
  | face_not_visible =>
      obtain ⟨a1, a2, a3, a4, a5, a6, -, a8, a9⟩ :=
        stepCellPhone_scan_false f now s hf.1
      obtain ⟨m1, m2, m3, m4, m5, -, m7, -, m9, m10⟩ :=
        stepMultipleFaces_no_confirm f now (stepCellPhone f now s)
          (fun hc => by rw [hf.2] at hc; exact Nat.not_lt_zero 1 hc.1)
      have h3 := stepFaceNotVisible_confirm f now
        (stepMultipleFaces f now (stepCellPhone f now s))
        (by rw [m1, a1]) hf.2
        (by
          rw [m4, a4]
          exact Nat.le_succ_of_le (hfnv rfl))
      have k1 : (stepFaceNotVisible f now
          (stepMultipleFaces f now (stepCellPhone f now s))).2 =
          some DType.face_not_visible := by rw [h3]
      have k2 : (stepFaceNotVisible f now
          (stepMultipleFaces f now (stepCellPhone f now s))).1.detectionType =
          (stepMultipleFaces f now
            (stepCellPhone f now s)).1.detectionType := by rw [h3]
      have k3 : (stepFaceNotVisible f now
          (stepMultipleFaces f now (stepCellPhone f now s))).1.detectionCount =
          (stepMultipleFaces f now
            (stepCellPhone f now s)).1.detectionCount := by rw [h3]
      have k6 : (stepFaceNotVisible f now
          (stepMultipleFaces f now
            (stepCellPhone f now s))).1.activeFaceNotVisible =
          (stepMultipleFaces f now
            (stepCellPhone f now s)).1.activeFaceNotVisible := by rw [h3]
      have k9 : (stepFaceNotVisible f now
          (stepMultipleFaces f now (stepCellPhone f now s))).1.violations =
          (stepMultipleFaces f now (stepCellPhone f now s)).1.violations := by
        rw [h3]
      have kcnt : (stepFaceNotVisible f now
          (stepMultipleFaces f now
            (stepCellPhone f now s))).1.faceNotVisibleCount =
          (stepMultipleFaces f now
            (stepCellPhone f now s)).1.faceNotVisibleCount + 1 := by rw [h3]
      have klast : (stepFaceNotVisible f now
          (stepMultipleFaces f now
            (stepCellPhone f now s))).1.lastCellPhoneDetectionTime =
          (stepMultipleFaces f now
            (stepCellPhone f now s)).1.lastCellPhoneDetectionTime := by
        rw [h3]
      unfold classifyPhase
      refine ⟨k1, ?_, ?_, ?_, ?_, ?_, ?_, ?_⟩
      · rw [k2, m2, a2]
      · rw [k3, m3, a3]
      · show (stepFaceNotVisible f now
          (stepMultipleFaces f now
            (stepCellPhone f now s))).1.activeFaceNotVisible =
          s.activeFaceNotVisible
        rw [k6, m7, a6]
      · intro j e he hty
        rw [k9]
        refine m10 j e ?_ ?_
        · refine a9 j e he ?_
          rw [hty]
          exact fun hc => DType.noConfusion (Option.some.inj hc)
        · rw [hty]
          exact fun hc => DType.noConfusion (Option.some.inj hc)
      · rw [k9]
        rw [m9]
        exact a8
      · intro
        rw [kcnt, m4, a4]
        exact Nat.le_succ_of_le (hfnv rfl)
      · rw [klast, m5, a5]


theorem setPtr_fields (s : EngineState) (ty : DType) (p : Option Nat) :
    (setPtr s ty p).detectionType = s.detectionType ∧
    (setPtr s ty p).detectionCount = s.detectionCount ∧
    (setPtr s ty p).faceNotVisibleCount = s.faceNotVisibleCount := by
  cases ty <;> exact ⟨rfl, rfl, rfl⟩

theorem applyAddViolation_match {s : EngineState} {ty : DType} {i : Nat}
    {e : ViolationEntry} (sc : Option Rat) (now : Int)
    (hp : ptrOf s ty = some i) (he : s.violations[i]? = some e)
    (hety : e.type = some ty) :
    (applyAddViolation s ty sc now).violations =
      s.violations.set i (touched e now sc) ∧
    ptrOf (applyAddViolation s ty sc now) ty = some i ∧
    (applyAddViolation s ty sc now).detectionType = s.detectionType ∧
    (applyAddViolation s ty sc now).detectionCount = s.detectionCount ∧
    (applyAddViolation s ty sc now).faceNotVisibleCount =
      s.faceNotVisibleCount := by
  simp only [applyAddViolation, hp, addViolationTracked_match ty sc now he hety]
  obtain ⟨g1, g2, g3⟩ := setPtr_fields
    { s with violations := s.violations.set i (touched e now sc) } ty (some i)
  refine ⟨?_, ?_, ?_, ?_, ?_⟩
  · rw [setPtr_violations]
  · rw [ptrOf_setPtr_same]
  · rw [g1]
  · rw [g2]
  · rw [g3]

/-- The trigger step on a tracked, confirmed, open interval extends exactly
that interval: `endTime := now`, same position, no append, pointers and
tracker untouched. -/
theorem triggerPhase_continuation (m : EngineState) (now : Int) (ty : DType)
    (i : Nat) (e : ViolationEntry) (hd : m.detectionType = some ty)
    (hcount : requiredConsecutive (some ty) ≤ m.detectionCount)
    (hp : ptrOf m ty = some i) (he : m.violations[i]? = some e)
    (hety : e.type = some ty) :
    (triggerPhase m now).detectionType = m.detectionType ∧
    (triggerPhase m now).detectionCount = m.detectionCount ∧
    (triggerPhase m now).faceNotVisibleCount = m.faceNotVisibleCount ∧
    ptrOf (triggerPhase m now) ty = some i ∧
    (∃ sc, (triggerPhase m now).violations =
      m.violations.set i (touched e now sc)) := by
  have hne : m.detectionType ≠ none := by rw [hd]; exact Option.noConfusion
  have hcount1 : requiredConsecutive m.detectionType ≤ m.detectionCount := by
    rw [hd]; exact hcount
  cases ty with
  | cell_phone =>
      simp only [triggerPhase]
      rw [if_pos ⟨hd, hcount1, hne⟩]
      by_cases hdeb : 1000 ≤ now - m.lastCellPhoneDetectionTime
      · rw [if_pos hdeb]
        obtain ⟨g1, g2, g3, g4, g5⟩ :=
          @applyAddViolation_match { m with lastCellPhoneDetectionTime := now }
            DType.cell_phone i e (violationScoreFor m DType.cell_phone) now hp
            he hety
        exact ⟨g3, g4, g5, g2, ⟨violationScoreFor m DType.cell_phone, g1⟩⟩
      · rw [if_neg hdeb]
        rw [if_pos (show m.activeCellPhone.isSome = true by
          rw [show m.activeCellPhone = some i from hp]; rfl)]
        refine ⟨rfl, rfl, rfl, ?_, ⟨violationScoreFor m DType.cell_phone, ?_⟩⟩
        · show m.activeCellPhone = some i
          exact hp
        · show updateActiveEntry m.violations m.activeCellPhone
            DType.cell_phone now (violationScoreFor m DType.cell_phone) =
            m.violations.set i
              (touched e now (violationScoreFor m DType.cell_phone))
          rw [show m.activeCellPhone = some i from hp]
          exact updateActiveEntry_match DType.cell_phone now
            (violationScoreFor m DType.cell_phone) he hety
  | multiple_faces =>
      simp only [triggerPhase]
      rw [if_neg (fun hc => by rw [hd] at hc; cases hc.1)]
      rw [if_pos ⟨hcount1, hne⟩]
      split
      · rename_i x hx
        rw [hd] at hx
        cases Option.some.inj hx
        obtain ⟨g1, g2, g3, g4, g5⟩ :=
          @applyAddViolation_match m DType.multiple_faces i e
            (violationScoreFor m DType.multiple_faces) now hp he hety
        exact ⟨g3, g4, g5, g2, ⟨violationScoreFor m DType.multiple_faces, g1⟩⟩
      · rename_i hx
        rw [hd] at hx
        cases hx
  | face_not_visible =>
      simp only [triggerPhase]
      rw [if_neg (fun hc => by rw [hd] at hc; cases hc.1)]
      rw [if_pos ⟨hcount1, hne⟩]
      split
      · rename_i x hx
        rw [hd] at hx
        cases Option.some.inj hx
        obtain ⟨g1, g2, g3, g4, g5⟩ :=
          @applyAddViolation_match m DType.face_not_visible i e
            (violationScoreFor m DType.face_not_visible) now hp he hety
        exact ⟨g3, g4, g5, g2, ⟨violationScoreFor m DType.face_not_visible, g1⟩⟩
      · rename_i hx
        rw [hd] at hx
        cases hx

/-- One continuation tick on a confirmed open interval: the tracked interval
stays the same open interval, the store length is unchanged, and the entry's
`endTime` is set to the tick's timestamp. -/
theorem tick_continuation (ty : DType) (i : Nat) (s : EngineState) (f : Frame)
    (now : Int) (hc : ContState ty i s) (hf : reconfirmFrame ty f) :
    ContState ty i (tick s f now) ∧
    (tick s f now).violations.length = s.violations.length ∧
    (∃ e, (tick s f now).violations[i]? = some e ∧ e.type = some ty ∧
      e.endTime = now) := by
  obtain ⟨hd, hcount, hp, ⟨e, he, hety⟩, hfnv⟩ := hc
  obtain ⟨c1, c2, c3, c4, c5, c6, c7, -⟩ :=
    classifyPhase_reconfirm ty s f now hd hf hfnv
  have htr := trackerPhase_same (classifyPhase s f now).1
    (classifyPhase s f now).2 now (by rw [c1, c2, hd])
  have hmdt : (preTriggerState s f now).detectionType = some ty := by
    unfold preTriggerState
    rw [htr]
    show (classifyPhase s f now).1.detectionType = some ty
    rw [c2, hd]
  have hmdc : (preTriggerState s f now).detectionCount =
      s.detectionCount + 1 := by
    unfold preTriggerState
    rw [htr]
    show (classifyPhase s f now).1.detectionCount + 1 = s.detectionCount + 1
    rw [c3]
  have hmp : ptrOf (preTriggerState s f now) ty = some i := by
    unfold preTriggerState
    rw [htr, ptrOf_count_bump, c4, hp]
  have hmv : (preTriggerState s f now).violations =
      (classifyPhase s f now).1.violations := by
    unfold preTriggerState
    rw [htr]
  have hme : (preTriggerState s f now).violations[i]? = some e := by
    rw [hmv]
    exact c5 i e he hety
  have hmfnv : ty = DType.face_not_visible →
      20 ≤ (preTriggerState s f now).faceNotVisibleCount := by
    intro hty
    unfold preTriggerState
    rw [htr]
    exact c7 hty
  obtain ⟨t1, t2, t3, t4, sc, t5⟩ :=
    triggerPhase_continuation (preTriggerState s f now) now ty i e hmdt
      (by rw [hmdc]; exact Nat.le_succ_of_le hcount) hmp hme hety
  have htick : tick s f now = triggerPhase (preTriggerState s f now) now := rfl
  have hlt : i < (preTriggerState s f now).violations.length :=
    (List.getElem?_eq_some.mp hme).fst
  have hlen : (preTriggerState s f now).violations.length =
      s.violations.length := by
    rw [hmv]
    exact c6
  have hval : (tick s f now).violations[i]? = some (touched e now sc) := by
    rw [htick, t5]
    exact List.getElem?_set_self hlt
  refine ⟨⟨?_, ?_, ?_, ?_, ?_⟩, ?_, ?_⟩
  · rw [htick, t1, hmdt]
  · rw [htick, t2, hmdc]
    exact Nat.le_succ_of_le hcount
  · rw [htick, t4]
  · exact ⟨touched e now sc, hval, by rw [touched_type]; exact hety⟩
  · intro hty
    rw [htick, t3]
    exact hmfnv hty
  · rw [htick, t5, List.length_set]
    exact hlen
  · exact ⟨touched e now sc, hval, by rw [touched_type]; exact hety,
      touched_endTime e now sc⟩



/-! ## C3 -/

/-- C3 counterexample: a cell-phone interval opened at t = 100200 carries the
initial `endTime = violationTime + 10s = 110200`; the very next continuation
tick of the same confirmed condition (t = 100300) overwrites `endTime` with
the current time 100300 < 110200.  The first extension therefore DECREASES
`endTime`, refuting monotonicity "including the first extension relative to
the initial endTime written at opening" (the interval is the same one: the
pointer stays `some 0` and no interval is added). -/
theorem C3_counterexample :
    (runTrace (phoneTicks [100000, 100100, 100200])).violations.map
        (fun e => e.endTime) = [110200] ∧
    (runTrace (phoneTicks [100000, 100100, 100200])).activeCellPhone =
      some 0 ∧
    (runTrace (phoneTicks [100000, 100100, 100200, 100300])).violations.map
        (fun e => e.endTime) = [100300] ∧
    (runTrace (phoneTicks [100000, 100100, 100200, 100300])).activeCellPhone =
      some 0 ∧
    (100300 : Int) < 110200 := by
  decide

/-- C3 amended: continuing the same confirmed condition for K more ticks
keeps the same single open interval (no additional interval, same index) and
sets its `endTime` to each continuation tick's own timestamp — so from the
second extension on the endTime values are non-decreasing whenever tick times
are, but the first extension overwrites the initial `violationTime + 10s`
value with the current time, which is smaller whenever the next tick comes
within 10 s of opening. -/
theorem C3_endTime_follows_tick_times (ty : DType) (i : Nat) :
    ∀ (tr : List (Frame × Int)) (s : EngineState), ContState ty i s →
      (∀ p ∈ tr, reconfirmFrame ty p.1) →
      (runTraceFrom s tr).violations.length = s.violations.length ∧
      ContState ty i (runTraceFrom s tr) ∧
      ∀ (j : Nat) (hj : j < tr.length),
        ∃ e, (runTraceFrom s (tr.take (j+1))).violations[i]? = some e ∧
          e.type = some ty ∧ e.endTime = (tr.get ⟨j, hj⟩).2 := by
  intro tr
  induction tr with
  | nil =>
      intro s hc _
      exact ⟨rfl, hc, fun j hj => absurd hj (Nat.not_lt_zero j)⟩
  | cons p tr ih =>
      intro s hc htr
      obtain ⟨hcs, hlen, hent⟩ := tick_continuation ty i s p.1 p.2 hc
        (htr p (List.mem_cons_self p tr))
      obtain ⟨ih1, ih2, ih3⟩ := ih (tick s p.1 p.2) hcs
        (fun q hq => htr q (List.mem_cons_of_mem p hq))
      refine ⟨?_, ?_, ?_⟩
      · show (runTraceFrom (tick s p.1 p.2) tr).violations.length =
          s.violations.length
        rw [ih1, hlen]
      · exact ih2
      · intro j hj
        cases j with
        | zero => exact hent
        | succ j =>
            have hj2 : j < tr.length := Nat.lt_of_succ_lt_succ hj
            obtain ⟨e, he, hety, hend⟩ := ih3 j hj2
            exact ⟨e, he, hety, hend⟩

/-- Witness for C3's amended theorem: the interval opened by three phone
ticks is continued for two more phone ticks; the single interval keeps index
0 and its endTime tracks each tick's timestamp. -/
theorem C3_witness :
    (runTraceFrom (runTrace (phoneTicks [100000, 100100, 100200]))
        (phoneTicks [100300, 100400])).violations.length =
      (runTrace (phoneTicks [100000, 100100, 100200])).violations.length ∧
    ContState DType.cell_phone 0
      (runTraceFrom (runTrace (phoneTicks [100000, 100100, 100200]))
        (phoneTicks [100300, 100400])) ∧
    ∀ (j : Nat) (hj : j < (phoneTicks [100300, 100400]).length),
      ∃ e, (runTraceFrom (runTrace (phoneTicks [100000, 100100, 100200]))
          ((phoneTicks [100300, 100400]).take (j+1))).violations[0]? =
            some e ∧
        e.type = some DType.cell_phone ∧
        e.endTime = ((phoneTicks [100300, 100400]).get ⟨j, hj⟩).2 :=
  C3_endTime_follows_tick_times DType.cell_phone 0
    (phoneTicks [100300, 100400])
    (runTrace (phoneTicks [100000, 100100, 100200]))
    ⟨by decide, by decide, by decide,
      ⟨freshEntry DType.cell_phone (some (mkRat 9 10)) 100200, by decide,
        by decide⟩,
      by decide⟩
    (by decide)


/-! ## C6 -/

/-- A cell-phone run long enough that an accepted continuation trigger at
t = 101200 refreshes the debounce timestamp, then a close at t = 101300 and a
re-confirmation at t = 101600. -/
def c6Trace : List (Frame × Int) :=
  phoneTicks [100000, 100100, 100200, 100300, 100400, 100500, 100600, 100700,
    100800, 100900, 101000, 101100, 101200] ++
  [(oneFaceFrame, 101300)] ++ phoneTicks [101400, 101500, 101600]

set_option maxRecDepth 10000 in
/-- C6 counterexample: the only accepted opening is at t = 100200 (the sole
entry's violationTime).  At the last tick t = 101600 the cell-phone condition
is re-confirmed (count 3 = required) with the interval closed (pointer
`none`), and 101600 − 100200 = 1400 ≥ the 1000 ms window — per the claim a
second interval must be created.  The code creates none (length stays 1),
because `lastCellPhoneDetectionTime` was refreshed to 101200 by an accepted
continuation tick of the already-open interval, not only on openings. -/
theorem C6_counterexample :
    (runTrace c6Trace).violations.map (fun e => e.violationTime) = [100200] ∧
    (runTrace c6Trace).lastCellPhoneDetectionTime = 101200 ∧
    (runTrace c6Trace).detectionType = some DType.cell_phone ∧
    (runTrace c6Trace).detectionCount = 3 ∧
    (runTrace c6Trace).activeCellPhone = none ∧
    (runTrace c6Trace).violations.length = 1 ∧
    (1000 : Int) ≤ 101600 - 100200 := by
  decide

theorem applyAddViolation_lastCP (s : EngineState) (ty : DType)
    (sc : Option Rat) (now : Int) :
    (applyAddViolation s ty sc now).lastCellPhoneDetectionTime =
      s.lastCellPhoneDetectionTime := by
  simp only [applyAddViolation]
  cases ty <;> simp only [setPtr]

/-- C6 amended: for the debounced kind, with the cell-phone condition
confirmed at the trigger step: (a) with no open interval and less than the
window since the LAST ACCEPTED TRIGGER (opening or roughly once-per-window
continuation — `lastCellPhoneDetectionTime`), the tick changes nothing — no
second interval; (b) with no open interval and the window elapsed, exactly
one fresh interval is appended, the pointer set, and the debounce timestamp
set to now; (c) extension of an already-open interval always proceeds
(`endTime := now`, no append) regardless of the gate, and the debounce
timestamp is refreshed exactly when the window had elapsed — also on such
continuation ticks, not only on openings. -/
theorem C6_debounce_measured_from_last_trigger (s : EngineState) (now : Int)
    (h1 : s.detectionType = some DType.cell_phone)
    (h2 : requiredConsecutive (some DType.cell_phone) ≤ s.detectionCount) :
    (s.activeCellPhone = none → now - s.lastCellPhoneDetectionTime < 1000 →
      triggerPhase s now = s) ∧
    (s.activeCellPhone = none → 1000 ≤ now - s.lastCellPhoneDetectionTime →
      (triggerPhase s now).violations = s.violations ++
        [freshEntry DType.cell_phone (violationScoreFor s DType.cell_phone)
          now] ∧
      (triggerPhase s now).lastCellPhoneDetectionTime = now ∧
      (triggerPhase s now).activeCellPhone = some s.violations.length) ∧
    (∀ (i : Nat) (e : ViolationEntry), s.activeCellPhone = some i →
      s.violations[i]? = some e → e.type = some DType.cell_phone →
      (triggerPhase s now).violations.length = s.violations.length ∧
      (∃ e2, (triggerPhase s now).violations[i]? = some e2 ∧
        e2.endTime = now) ∧
      (1000 ≤ now - s.lastCellPhoneDetectionTime →
        (triggerPhase s now).lastCellPhoneDetectionTime = now) ∧
      (now - s.lastCellPhoneDetectionTime < 1000 →
        (triggerPhase s now).lastCellPhoneDetectionTime =
          s.lastCellPhoneDetectionTime)) := by
  have hne : s.detectionType ≠ none := by rw [h1]; exact Option.noConfusion
  have hcount1 : requiredConsecutive s.detectionType ≤ s.detectionCount := by
    rw [h1]; exact h2
  refine ⟨fun hnone hlt => ?_, fun hnone hge => ?_, fun i e hp he hety => ?_⟩
  · simp only [triggerPhase]
    rw [if_pos ⟨h1, hcount1, hne⟩, if_neg (not_le.mpr hlt)]
    rw [if_neg (by rw [hnone]; exact Bool.false_ne_true)]
  · simp only [triggerPhase]
    rw [if_pos ⟨h1, hcount1, hne⟩, if_pos hge]
    have hp1 : ptrOf { s with lastCellPhoneDetectionTime := now }
        DType.cell_phone = none := hnone
    simp only [applyAddViolation, hp1, addViolationTracked_ptr_none]
    refine ⟨?_, ?_, ?_⟩
    · rw [setPtr_violations]
    · simp only [setPtr]
    · simp only [setPtr]
  · have hcp : ptrOf s DType.cell_phone = some i := hp
    have hlen : i < s.violations.length := (List.getElem?_eq_some.mp he).fst
    by_cases hdeb : 1000 ≤ now - s.lastCellPhoneDetectionTime
    · simp only [triggerPhase]
      rw [if_pos ⟨h1, hcount1, hne⟩, if_pos hdeb]
      obtain ⟨g1, -, -, -, -⟩ :=
        @applyAddViolation_match { s with lastCellPhoneDetectionTime := now }
          DType.cell_phone i e (violationScoreFor s DType.cell_phone) now hcp
          he hety
      refine ⟨?_, ?_, fun _ => ?_, fun hlt => absurd hdeb (not_le.mpr hlt)⟩
      · rw [g1, List.length_set]
      · exact ⟨touched e now (violationScoreFor s DType.cell_phone),
          by rw [g1]; exact List.getElem?_set_self hlen,
          touched_endTime e now _⟩
      · rw [applyAddViolation_lastCP]
    · simp only [triggerPhase]
      rw [if_pos ⟨h1, hcount1, hne⟩, if_neg hdeb]
      rw [if_pos (show s.activeCellPhone.isSome = true by
        rw [show s.activeCellPhone = some i from hp]; rfl)]
      refine ⟨?_, ?_, fun hge => absurd hge hdeb, fun _ => rfl⟩
      · show (updateActiveEntry s.violations s.activeCellPhone
          DType.cell_phone now (violationScoreFor s DType.cell_phone)).length =
          s.violations.length
        exact updateActiveEntry_length s.violations s.activeCellPhone
          DType.cell_phone now (violationScoreFor s DType.cell_phone)
      · refine ⟨touched e now (violationScoreFor s DType.cell_phone), ?_,
          touched_endTime e now _⟩
        show (updateActiveEntry s.violations s.activeCellPhone
          DType.cell_phone now (violationScoreFor s DType.cell_phone))[i]? =
          some (touched e now (violationScoreFor s DType.cell_phone))
        rw [show s.activeCellPhone = some i from hp,
          updateActiveEntry_match DType.cell_phone now
            (violationScoreFor s DType.cell_phone) he hety]
        exact List.getElem?_set_self hlen

set_option maxRecDepth 10000 in
/-- Witness for C6's amended theorem at concrete inputs: the re-confirmation
tick at t = 101600 of `c6Trace` (no open interval, 400 ms since the last
accepted trigger) changes nothing. -/
theorem C6_witness :
    triggerPhase (preTriggerState (runTrace (c6Trace.take 16)) phoneFaceFrame
      101600) 101600 =
    preTriggerState (runTrace (c6Trace.take 16)) phoneFaceFrame 101600 :=
  (C6_debounce_measured_from_last_trigger _ 101600 (by decide)
    (by decide)).1 (by decide) (by decide)


/-! ## C7 -/

/-- A detection whose leading category has a phone label. -/
def phoneDetected (d : Detection) : Prop :=
  ∃ c, d.categories.head? = some c ∧ isPhoneCategory c.categoryName = true

/-- Configuration of the spec-side restricted-object classifier (§4.1, §6):
confidence threshold, bounding-box area-ratio range and aspect-ratio range. -/
structure RestrictedObjectConfig where
  confidenceThreshold : Rat
  areaRatioLo : Rat
  areaRatioHi : Rat
  aspectLo : Rat
  aspectHi : Rat
deriving DecidableEq, Repr

/-- The spec-side classifier for the refinement comparison of C7, following
the spec's words: a detection qualifies when it is labeled as a restricted
category, exceeds the confidence threshold, AND passes the plausibility
filter — bounding-box area ratio and aspect ratio within configured bounds
(ratios are stated multiplicatively to avoid division). -/
def specQualifies (cfg : RestrictedObjectConfig) (frameW frameH : Rat)
    (d : Detection) : Bool :=
  match d.categories.head?, d.boundingBox with
  | some c, some bb =>
      isPhoneCategory c.categoryName &&
      decide (cfg.confidenceThreshold < c.score) &&
      decide (cfg.areaRatioLo * (frameW * frameH) ≤ bb.width * bb.height) &&
      decide (bb.width * bb.height ≤ cfg.areaRatioHi * (frameW * frameH)) &&
      decide (cfg.aspectLo * bb.height ≤ bb.width) &&
      decide (bb.width ≤ cfg.aspectHi * bb.height)
  | _, _ => false

/-- The spec-side condition: raised iff some detection qualifies. -/
def specRestrictedObjectRaised (cfg : RestrictedObjectConfig)
    (frameW frameH : Rat) (dets : List Detection) : Bool :=
  dets.any (specQualifies cfg frameW frameH)

/-- A concrete configuration: the confidence threshold 3/10 is the source's
own `scoreThreshold: 0.3` of the ObjectDetector options (App.tsx line 767);
the bounds are any non-degenerate plausibility bounds (area ratio within
[0, 1], aspect ratio within [1/10, 10]). -/
def specConfig : RestrictedObjectConfig :=
  { confidenceThreshold := mkRat 3 10
    areaRatioLo := 0
    areaRatioHi := 1
    aspectLo := mkRat 1 10
    aspectHi := 10 }

/-- A phone-labeled detection with confidence 1/10 (below the 3/10 threshold)
and an absurd 1000 × 1 bounding box (aspect ratio 1000). -/
def lowScorePhoneDet : Detection :=
  { categories := [{ categoryName := "cell phone", score := mkRat 1 10 }]
    boundingBox :=
      some { originX := 0, originY := 0, width := 1000, height := 1 } }

/-- C7 counterexample: on a frame holding only `lowScorePhoneDet`, the
engine raises the restricted-object condition (and takes 1/10 as the tick's
score), while the spec-side classifier — which demands the confidence
threshold and the plausibility filter — does not: the claimed equivalence
fails at this frame.  The engine checks only the category label. -/
theorem C7_counterexample :
    (scanCellPhone [lowScorePhoneDet]).1 = true ∧
    (scanCellPhone [lowScorePhoneDet]).2 = mkRat 1 10 ∧
    specRestrictedObjectRaised specConfig 640 480 [lowScorePhoneDet] =
      false := by
  decide

/-- Characterization of `scanStep` folds, by induction over the detections,
generalizing the accumulator. -/
theorem scanFold_spec (dets : List Detection) :
    ∀ acc : Bool × Rat,
      ((dets.foldl scanStep acc).1 = true ↔ acc.1 = true ∨
        ∃ d ∈ dets, phoneDetected d) ∧
      acc.2 ≤ (dets.foldl scanStep acc).2 ∧
      (∀ d ∈ dets, ∀ c, d.categories.head? = some c →
        isPhoneCategory c.categoryName = true →
        c.score ≤ (dets.foldl scanStep acc).2) ∧
      ((dets.foldl scanStep acc).2 = acc.2 ∨
        ∃ d ∈ dets, ∃ c, d.categories.head? = some c ∧
          isPhoneCategory c.categoryName = true ∧
          c.score = (dets.foldl scanStep acc).2) := by
  induction dets with
  | nil =>
      intro acc
      refine ⟨?_, le_refl _, ?_, Or.inl rfl⟩
      · constructor
        · exact fun h => Or.inl h
        · rintro (h | ⟨d, hd, -⟩)
          · exact h
          · cases hd
      · intro d hd
        cases hd
  | cons d dets ih =>
      intro acc
      simp only [List.foldl_cons]
      obtain ⟨i1, i2, i3, i4⟩ := ih (scanStep acc d)
      by_cases hq : phoneDetected d
      · obtain ⟨c, hhead, hphone⟩ := hq
        have hstep : scanStep acc d = (true, max acc.2 c.score) := by
          simp [scanStep, hhead, hphone]
        rw [hstep] at i1 i2 i3 i4 ⊢
        refine ⟨?_, ?_, ?_, ?_⟩
        · rw [i1]
          constructor
          · intro _
            exact Or.inr ⟨d, List.mem_cons_self d dets, c, hhead, hphone⟩
          · intro _
            exact Or.inl rfl
        · exact le_trans (le_max_left acc.2 c.score) i2
        · intro d2 hd2 c2 hc2 hph2
          rcases List.mem_cons.mp hd2 with rfl | hd2
          · rw [hhead] at hc2
            cases hc2
            exact le_trans (le_max_right acc.2 c.score) i2
          · exact i3 d2 hd2 c2 hc2 hph2
        · rcases i4 with h | ⟨d2, hd2, c2, hc2, hph2, hsc⟩
          · rcases le_total acc.2 c.score with hle | hle
            · exact Or.inr ⟨d, List.mem_cons_self d dets, c, hhead, hphone,
                by rw [h, max_eq_right hle]⟩
            · exact Or.inl (by rw [h, max_eq_left hle])
          · exact Or.inr ⟨d2, List.mem_cons_of_mem d hd2, c2, hc2, hph2, hsc⟩
      · have hstep : scanStep acc d = acc := by
          cases hhead : d.categories.head? with
          | none => simp [scanStep, hhead]
          | some c =>
              simp only [scanStep, hhead]
              rw [if_neg (fun hphone => hq ⟨c, hhead, hphone⟩)]
        rw [hstep] at i1 i2 i3 i4 ⊢
        refine ⟨?_, i2, ?_, ?_⟩
        · rw [i1]
          constructor
          · rintro (h | ⟨d2, hd2, hq2⟩)
            · exact Or.inl h
            · exact Or.inr ⟨d2, List.mem_cons_of_mem d hd2, hq2⟩
          · rintro (h | ⟨d2, hd2, hq2⟩)
            · exact Or.inl h
            · rcases List.mem_cons.mp hd2 with rfl | hd2
              · exact absurd hq2 hq
              · exact Or.inr ⟨d2, hd2, hq2⟩
        · intro d2 hd2 c2 hc2 hph2
          rcases List.mem_cons.mp hd2 with rfl | hd2
          · exact absurd ⟨c2, hc2, hph2⟩ hq
          · exact i3 d2 hd2 c2 hc2 hph2
        · rcases i4 with h | ⟨d2, hd2, c2, hc2, hph2, hsc⟩
          · exact Or.inl h
          · exact Or.inr ⟨d2, List.mem_cons_of_mem d hd2, c2, hc2, hph2, hsc⟩

/-- C7 amended: for every frame, the restricted-object condition is raised
iff SOME detection's leading category carries a phone label — no confidence
threshold and no bounding-box plausibility filter take part in this check
(thresholding is delegated to the upstream detector configuration).  Among
qualifying detections, the tick's representative score is the maximum label
score: it bounds every qualifying score from above, and when the condition
is raised it is either attained by a qualifying detection or is the 0
initial accumulator. -/
theorem C7_label_only_and_max_score (dets : List Detection) :
    ((scanCellPhone dets).1 = true ↔ ∃ d ∈ dets, phoneDetected d) ∧
    (∀ d ∈ dets, ∀ c, d.categories.head? = some c →
      isPhoneCategory c.categoryName = true →
      c.score ≤ (scanCellPhone dets).2) ∧
    ((scanCellPhone dets).1 = true →
      (scanCellPhone dets).2 = 0 ∨
      ∃ d ∈ dets, ∃ c, d.categories.head? = some c ∧
        isPhoneCategory c.categoryName = true ∧
        c.score = (scanCellPhone dets).2) := by
  obtain ⟨i1, -, i3, i4⟩ := scanFold_spec dets (false, 0)
  refine ⟨?_, i3, fun _ => ?_⟩
  · rw [show scanCellPhone dets = dets.foldl scanStep (false, 0) from rfl, i1]
    constructor
    · rintro (h | h)
      · cases h
      · exact h
    · exact fun h => Or.inr h
  · exact i4

/-- Witness for C7's amended theorem on a concrete frame with two phone
detections (scores 1/2 and 9/10) and one non-phone detection. -/
theorem C7_witness :
    (((scanCellPhone [phoneDet (mkRat 1 2),
        { categories := [{ categoryName := "book", score := mkRat 8 10 }]
          boundingBox := none },
        phoneDet (mkRat 9 10)]).1 = true ↔
      ∃ d ∈ [phoneDet (mkRat 1 2),
        { categories := [{ categoryName := "book", score := mkRat 8 10 }]
          boundingBox := none },
        phoneDet (mkRat 9 10)], phoneDetected d) ∧
    (∀ d ∈ [phoneDet (mkRat 1 2),
        { categories := [{ categoryName := "book", score := mkRat 8 10 }]
          boundingBox := none },
        phoneDet (mkRat 9 10)], ∀ c, d.categories.head? = some c →
      isPhoneCategory c.categoryName = true →
      c.score ≤ (scanCellPhone [phoneDet (mkRat 1 2),
        { categories := [{ categoryName := "book", score := mkRat 8 10 }]
          boundingBox := none },
        phoneDet (mkRat 9 10)]).2) ∧
    ((scanCellPhone [phoneDet (mkRat 1 2),
        { categories := [{ categoryName := "book", score := mkRat 8 10 }]
          boundingBox := none },
        phoneDet (mkRat 9 10)]).1 = true →
      (scanCellPhone [phoneDet (mkRat 1 2),
        { categories := [{ categoryName := "book", score := mkRat 8 10 }]
          boundingBox := none },
        phoneDet (mkRat 9 10)]).2 = 0 ∨
      ∃ d ∈ [phoneDet (mkRat 1 2),
        { categories := [{ categoryName := "book", score := mkRat 8 10 }]
          boundingBox := none },
        phoneDet (mkRat 9 10)], ∃ c, d.categories.head? = some c ∧
        isPhoneCategory c.categoryName = true ∧
        c.score = (scanCellPhone [phoneDet (mkRat 1 2),
          { categories := [{ categoryName := "book", score := mkRat 8 10 }]
            boundingBox := none },
          phoneDet (mkRat 9 10)]).2)) :=
  C7_label_only_and_max_score [phoneDet (mkRat 1 2),
    { categories := [{ categoryName := "book", score := mkRat 8 10 }]
      boundingBox := none },
    phoneDet (mkRat 9 10)]


/-! ## C9 -/

set_option maxRecDepth 10000 in
/-- C9 counterexample: two four-tick runs — phone at 100000/100100/100200
then phone again at 100300 (trace A, interval extended and STILL OPEN), vs
phone three times then no phone at 100300 (trace B, interval CLOSED at
100300) — produce IDENTICAL stored violation lists; only the active pointer
differs.  The record representation {type, violationTime, startTime, endTime,
score} therefore cannot and does not carry a `closed` flag, refuting "closing
sets closed = true" and "every record carries the closed flag". -/
theorem C9_counterexample :
    (runTrace (phoneTicks [100000, 100100, 100200, 100300])).violations =
      (runTrace (phoneTicks [100000, 100100, 100200] ++
        [(oneFaceFrame, 100300)])).violations ∧
    (runTrace (phoneTicks [100000, 100100, 100200,
      100300])).activeCellPhone = some 0 ∧
    (runTrace (phoneTicks [100000, 100100, 100200] ++
      [(oneFaceFrame, 100300)])).activeCellPhone = none := by
  decide

/-- C9 amended: closing sets `endTime := now` on the pointed entry (the only
field changed — there is no closed flag; open/closed status is tracked
solely by the per-kind active pointer); closing through an absent pointer is
a no-op on the store, closing through a stale pointer (absent entry or wrong
kind) is a no-op on the store; and the cell-phone cessation site of the tick
always leaves the cell-phone pointer cleared when no phone is detected. -/
theorem C9_close_sets_endTime_and_clears_pointer :
    (∀ (vs : List ViolationEntry) (i : Nat) (e : ViolationEntry) (ty : DType)
        (now : Int), vs[i]? = some e → e.type = some ty →
      updateActiveEntry vs (some i) ty now none =
        vs.set i { e with endTime := now }) ∧
    (∀ (vs : List ViolationEntry) (ty : DType) (now : Int),
      updateActiveEntry vs none ty now none = vs) ∧
    (∀ (vs : List ViolationEntry) (i : Nat) (ty : DType) (now : Int),
      (∀ e, vs[i]? = some e → e.type ≠ some ty) →
      updateActiveEntry vs (some i) ty now none = vs) ∧
    (∀ (s : EngineState) (f : Frame) (now : Int),
      (scanCellPhone f.objectDetections).1 = false →
      (classifyPhase s f now).1.activeCellPhone = none) := by
  refine ⟨fun vs i e ty now he hety => ?_, fun vs ty now => rfl,
    fun vs i ty now h => updateActiveEntry_stale ty now none h,
    fun s f now hscan => ?_⟩
  · rw [updateActiveEntry_match ty now none he hety]
    rfl
  · have h1 : (stepCellPhone f now s).1.activeCellPhone = none := by
      simp only [stepCellPhone, hscan, Bool.false_eq_true, if_false]
      split
      · rfl
      · rename_i hns
        exact Option.not_isSome_iff_eq_none.mp hns
    obtain ⟨-, -, -, -, -, g6, -, -⟩ :=
      stepMultipleFaces_frame f now (stepCellPhone f now s)
    obtain ⟨-, -, -, -, k5, -, -⟩ :=
      stepFaceNotVisible_frame f now
        (stepMultipleFaces f now (stepCellPhone f now s))
    show (stepFaceNotVisible f now
      (stepMultipleFaces f now (stepCellPhone f now s))).1.activeCellPhone =
      none
    rw [k5, g6, h1]

/-- Witness for C9's amended theorem at concrete inputs: a matched close on a
one-entry store, a stale (wrong-kind) close no-op, and pointer clearing on a
no-phone tick after an opening. -/
theorem C9_witness :
    updateActiveEntry [freshEntry DType.cell_phone none 100000] (some 0)
        DType.cell_phone 100500 none =
      [freshEntry DType.cell_phone none 100000].set 0
        { freshEntry DType.cell_phone none 100000 with endTime := 100500 } ∧
    updateActiveEntry [freshEntry DType.cell_phone none 100000] (some 0)
        DType.multiple_faces 100500 none =
      [freshEntry DType.cell_phone none 100000] ∧
    (classifyPhase (tick initState phoneFaceFrame 100000) oneFaceFrame
        100100).1.activeCellPhone = none :=
  ⟨C9_close_sets_endTime_and_clears_pointer.1 _ 0 _ DType.cell_phone 100500
      (by decide) (by decide),
   C9_close_sets_endTime_and_clears_pointer.2.2.1 _ 0 DType.multiple_faces
      100500
      (by
        intro e he
        rw [show ([freshEntry DType.cell_phone none 100000])[0]? =
          some (freshEntry DType.cell_phone none 100000) from rfl] at he
        cases he
        decide),
   C9_close_sets_endTime_and_clears_pointer.2.2.2 _ oneFaceFrame 100100
      (by decide)⟩

/-! ## C10 -/

/-- C10: every tick mutates the violation store only by appending at most one
entry at the end and/or in-place updates that preserve `type`,
`violationTime` and `startTime` (only `endTime` and `score` can change); no
entry is ever removed and existing entries keep their positions, so recorded
active indices remain valid identifiers. -/
theorem C10_store_mutation_shape (s : EngineState) (f : Frame) (now : Int) :
    ((tick s f now).violations.length = s.violations.length ∨
      (tick s f now).violations.length = s.violations.length + 1) ∧
    ∀ (j : Nat) (e : ViolationEntry), s.violations[j]? = some e →
      ∃ e2, (tick s f now).violations[j]? = some e2 ∧
        e2.type = e.type ∧ e2.violationTime = e.violationTime ∧
        e2.startTime = e.startTime := by
  obtain ⟨-, -, -, -, -, -, -, h8⟩ := stepCellPhone_frame f now s
  obtain ⟨-, -, -, -, -, -, -, g8⟩ :=
    stepMultipleFaces_frame f now (stepCellPhone f now s)
  obtain ⟨-, -, -, -, -, -, k7⟩ :=
    stepFaceNotVisible_frame f now
      (stepMultipleFaces f now (stepCellPhone f now s))
  obtain ⟨-, -, -, -, -, t6⟩ := trackerPhase_frame (classifyPhase s f now).1
    (classifyPhase s f now).2 now
  obtain ⟨-, -, -, r4⟩ := triggerPhase_frame (preTriggerState s f now) now
  have hchain : StoreEq s.violations (preTriggerState s f now).violations :=
    StoreEq.trans (StoreEq.trans (StoreEq.trans h8 g8) k7) t6
  have hstep : StoreStep s.violations (tick s f now).violations :=
    hchain.trans_step r4
  refine ⟨hstep.1, fun j e he => ?_⟩
  obtain ⟨e2, he2, hs⟩ := hstep.2 j e he
  exact ⟨e2, he2, congrArg Prod.fst hs, congrArg (fun q => q.2.1) hs,
    congrArg (fun q => q.2.2) hs⟩

/-- Witness for C10 on a concrete appending tick (the third phone tick opens
the interval). -/
theorem C10_witness :
    ((tick (runTrace (phoneTicks [100000, 100100])) phoneFaceFrame
        100200).violations.length =
      (runTrace (phoneTicks [100000, 100100])).violations.length ∨
      (tick (runTrace (phoneTicks [100000, 100100])) phoneFaceFrame
        100200).violations.length =
      (runTrace (phoneTicks [100000, 100100])).violations.length + 1) ∧
    ∀ (j : Nat) (e : ViolationEntry),
      (runTrace (phoneTicks [100000, 100100])).violations[j]? = some e →
      ∃ e2, (tick (runTrace (phoneTicks [100000, 100100])) phoneFaceFrame
          100200).violations[j]? = some e2 ∧
        e2.type = e.type ∧ e2.violationTime = e.violationTime ∧
        e2.startTime = e.startTime :=
  C10_store_mutation_shape (runTrace (phoneTicks [100000, 100100]))
    phoneFaceFrame 100200

end Proctoring
